import Mathlib

/-!
# go-crypto: cipher sessions (`crypto.go`) and the GCM stream adapter (`gcm.go`)

A shallow embedding of the two Go source files and of the parts of the Go
runtime and of the imported libraries they rely on.

* Go runtime: byte slices with length and capacity, the built-ins `copy` and
  `append`, slicing, returned errors and panics.
* Hash libraries: `crypto/sha256` and `crypto/md5` are implemented in full
  (FIPS 180-4 and RFC 1321), so that digests of concrete inputs can be computed.
* Cipher libraries: the constructors validate their arguments exactly as the
  libraries document; the objects they return are records of how they were
  built, and the cryptographic transformations themselves are the fields of
  `Primitives`, over which the theorems quantify.
* The repository: `newCFBStream` ... `newChaCha20Stream`, `cipherMethod`,
  `NewCipher`, `gcm.XORKeyStream`, `gcm.BlockSize`, `NewGCMStreamer`.
-/

namespace GoCrypto

/-! ## Go runtime -/

/-- A byte; the hash functions only ever produce values below 256. -/
abbrev Byte := Nat

/-- Outcome of a Go call that may return an error value or panic. -/
inductive Res (α : Type) where
  | ok (val : α)
  | err (msg : String)
  | panic (msg : String)
deriving DecidableEq, Repr

/-- Sequencing: `if err != nil { return nil, err }`; a panic unwinds through the caller. -/
def Res.bind {α β : Type} (r : Res α) (f : α → Res β) : Res β :=
  match r with
  | .ok a => f a
  | .err m => .err m
  | .panic m => .panic m

/-- A `[]byte` value seen as a window on its backing array: `data` holds the
`len` bytes in view, `tail` the bytes of the array between `len` and `cap`. -/
structure Slice where
  data : List Byte
  tail : List Byte
deriving DecidableEq, Repr

/-- Go `len(s)`. -/
def Slice.len (s : Slice) : Nat := s.data.length

/-- Go `cap(s)`. -/
def Slice.cap (s : Slice) : Nat := s.data.length + s.tail.length

/-- The backing array from the start of the slice up to its capacity. -/
def Slice.array (s : Slice) : List Byte := s.data ++ s.tail

/-- Go `make([]byte, n)`. -/
def make (n : Nat) : Slice := { data := List.replicate n 0, tail := [] }

/-- Go `copy(dst, src)`: the first `min(len(dst), len(src))` bytes of `dst` are
overwritten; nothing beyond `len(dst)` is touched. -/
def copy (dst : Slice) (src : List Byte) : Slice :=
  let n := min dst.len src.length
  { dst with data := src.take n ++ dst.data.drop n }

/-- Go `append(s, xs...)`: when the capacity suffices the bytes are written in
place, right after `len(s)` in the backing array of `s`, and the flag is `true`;
otherwise a new array is allocated and the array of `s` is left alone. The
capacity of a new array is implementation-defined; the embedding gives it no
spare bytes, and nothing below depends on that choice. -/
def Slice.append (s : Slice) (xs : List Byte) : Slice × Bool :=
  if xs.length ≤ s.tail.length then
    ({ data := s.data ++ xs, tail := s.tail.drop xs.length }, true)
  else
    ({ data := s.data ++ xs, tail := [] }, false)

/-- The slice `s` once its backing array holds the bytes `arr`. -/
def Slice.seenOn (s : Slice) (arr : List Byte) : Slice :=
  { data := arr.take s.len, tail := arr.drop s.len }

/-- Go `s[:n]`: allowed up to the capacity, panics beyond it; the result shares the array. -/
def Slice.sliceTo (s : Slice) (n : Nat) : Res Slice :=
  if n ≤ s.cap then .ok { data := s.array.take n, tail := s.array.drop n }
  else .panic "runtime error: slice bounds out of range"

/-! ## crypto/sha256 and crypto/md5 -/

/-- The `n` low bytes of `w`, most significant first. -/
def beBytes (n : Nat) (w : Nat) : List Byte :=
  (List.range n).map fun i => (w / 256 ^ (n - 1 - i)) % 256

/-- The `n` low bytes of `w`, least significant first. -/
def leBytes (n : Nat) (w : Nat) : List Byte :=
  (List.range n).map fun i => (w / 256 ^ i) % 256

/-- Big-endian value of a byte string. -/
def beWord (bs : List Byte) : Nat := bs.foldl (fun acc b => acc * 256 + b % 256) 0

/-- Little-endian value of a byte string. -/
def leWord (bs : List Byte) : Nat := bs.foldr (fun b acc => acc * 256 + b % 256) 0

/-- The complete `size`-byte chunks of a byte string, in order. -/
def chunks (size : Nat) (bs : List Byte) : List (List Byte) :=
  (List.range (bs.length / size)).map fun i => (bs.drop (size * i)).take size

/-- Rotate a 32-bit word right. -/
def rotr32 (w n : Nat) : Nat := ((w >>> n) ||| (w <<< (32 - n))) % 2 ^ 32

/-- Rotate a 32-bit word left. -/
def rotl32 (w n : Nat) : Nat := ((w <<< n) ||| (w >>> (32 - n))) % 2 ^ 32

/-- Bitwise complement of a 32-bit word. -/
def not32 (w : Nat) : Nat := 2 ^ 32 - 1 - w % 2 ^ 32

/-- Merkle-Damgard padding to a multiple of 64 bytes: `0x80`, zeros, and the
bit length in 8 bytes (in the byte order given by `lenBytes`). -/
def mdPad (lenBytes : Nat → List Byte) (msg : List Byte) : List Byte :=
  msg ++ [0x80] ++ List.replicate ((119 - msg.length % 64) % 64) 0 ++
    lenBytes (8 * msg.length % 2 ^ 64)

/-- The largest `r` below `2 ^ 40` with `r ^ k ≤ n`, built bit by bit from the top. -/
def iroot (k n : Nat) : Nat :=
  (List.range 40).foldl (fun r i => if (r + 2 ^ (39 - i)) ^ k ≤ n then r + 2 ^ (39 - i) else r) 0

/-- The first 64 primes, 2, 3, 5, ..., 311: below 361 trial division by 2, ..., 18 suffices. -/
def primes64 : List Nat :=
  (List.range 312).filter fun n =>
    2 ≤ n ∧ (List.range 19).all fun d => d < 2 ∨ n ≤ d ∨ n % d ≠ 0

/-- SHA-256 round constants (FIPS 180-4, 4.2.2): the first 32 bits of the
fractional parts of the cube roots of the first 64 primes. -/
def sha256K : List Nat := primes64.map fun p => iroot 3 (p * 2 ^ 96) % 2 ^ 32

/-- SHA-256 initial hash value (FIPS 180-4, 5.3.3): the first 32 bits of the
fractional parts of the square roots of the first 8 primes. -/
def sha256Init : List Nat := (primes64.take 8).map fun p => iroot 2 (p * 2 ^ 64) % 2 ^ 32

/-- SHA-256 message schedule of one 64-byte block: 64 words. -/
def sha256Schedule (block : List Byte) : List Nat :=
  (List.range 48).foldl
    (fun w _ =>
      let n := w.length
      let w15 := w.getD (n - 15) 0
      let w2 := w.getD (n - 2) 0
      let s0 := rotr32 w15 7 ^^^ rotr32 w15 18 ^^^ (w15 >>> 3)
      let s1 := rotr32 w2 17 ^^^ rotr32 w2 19 ^^^ (w2 >>> 10)
      w ++ [(w.getD (n - 16) 0 + s0 + w.getD (n - 7) 0 + s1) % 2 ^ 32])
    ((chunks 4 block).map beWord)

/-- One SHA-256 round on the working variables `a..h`. -/
def sha256Round (st : List Nat) (kw : Nat × Nat) : List Nat :=
  match st with
  | [a, b, c, d, e, f, g, h] =>
    let s1 := rotr32 e 6 ^^^ rotr32 e 11 ^^^ rotr32 e 25
    let ch := (e &&& f) ^^^ (not32 e &&& g)
    let t1 := (h + s1 + ch + kw.1 + kw.2) % 2 ^ 32
    let s0 := rotr32 a 2 ^^^ rotr32 a 13 ^^^ rotr32 a 22
    let maj := (a &&& b) ^^^ (a &&& c) ^^^ (b &&& c)
    let t2 := (s0 + maj) % 2 ^ 32
    [(t1 + t2) % 2 ^ 32, a, b, c, (d + t1) % 2 ^ 32, e, f, g]
  | _ => st

/-- SHA-256 compression of one block into the hash value. -/
def sha256Block (h : List Nat) (block : List Byte) : List Nat :=
  List.zipWith (fun x y => (x + y) % 2 ^ 32) h
    ((sha256K.zip (sha256Schedule block)).foldl sha256Round h)

/-- Go `sha256.Sum256(msg)`: the 32-byte SHA-256 digest. -/
def sha256.Sum256 (msg : List Byte) : List Byte :=
  (((chunks 64 (mdPad (beBytes 8) msg)).foldl sha256Block sha256Init).map (beBytes 4)).flatten

/-- MD5 sine-table constants. -/
def md5K : List Nat :=
  [0xd76aa478, 0xe8c7b756, 0x242070db, 0xc1bdceee, 0xf57c0faf, 0x4787c62a, 0xa8304613, 0xfd469501,
   0x698098d8, 0x8b44f7af, 0xffff5bb1, 0x895cd7be, 0x6b901122, 0xfd987193, 0xa679438e, 0x49b40821,
   0xf61e2562, 0xc040b340, 0x265e5a51, 0xe9b6c7aa, 0xd62f105d, 0x02441453, 0xd8a1e681, 0xe7d3fbc8,
   0x21e1cde6, 0xc33707d6, 0xf4d50d87, 0x455a14ed, 0xa9e3e905, 0xfcefa3f8, 0x676f02d9, 0x8d2a4c8a,
   0xfffa3942, 0x8771f681, 0x6d9d6122, 0xfde5380c, 0xa4beea44, 0x4bdecfa9, 0xf6bb4b60, 0xbebfbc70,
   0x289b7ec6, 0xeaa127fa, 0xd4ef3085, 0x04881d05, 0xd9d4d039, 0xe6db99e5, 0x1fa27cf8, 0xc4ac5665,
   0xf4292244, 0x432aff97, 0xab9423a7, 0xfc93a039, 0x655b59c3, 0x8f0ccc92, 0xffeff47d, 0x85845dd1,
   0x6fa87e4f, 0xfe2ce6e0, 0xa3014314, 0x4e0811a1, 0xf7537e82, 0xbd3af235, 0x2ad7d2bb, 0xeb86d391]

/-- MD5 per-round rotation amounts. -/
def md5S : List Nat :=
  [7, 12, 17, 22, 7, 12, 17, 22, 7, 12, 17, 22, 7, 12, 17, 22,
   5, 9, 14, 20, 5, 9, 14, 20, 5, 9, 14, 20, 5, 9, 14, 20,
   4, 11, 16, 23, 4, 11, 16, 23, 4, 11, 16, 23, 4, 11, 16, 23,
   6, 10, 15, 21, 6, 10, 15, 21, 6, 10, 15, 21, 6, 10, 15, 21]

/-- MD5 initial state. -/
def md5Init : List Nat := [0x67452301, 0xefcdab89, 0x98badcfe, 0x10325476]

/-- One MD5 step on the state `a, b, c, d` with message words `m`. -/
def md5Round (m : List Nat) (st : List Nat) (i : Nat) : List Nat :=
  match st with
  | [a, b, c, d] =>
    let f :=
      if i < 16 then (b &&& c) ||| (not32 b &&& d)
      else if i < 32 then (d &&& b) ||| (not32 d &&& c)
      else if i < 48 then b ^^^ c ^^^ d
      else c ^^^ (b ||| not32 d)
    let g :=
      if i < 16 then i
      else if i < 32 then (5 * i + 1) % 16
      else if i < 48 then (3 * i + 5) % 16
      else (7 * i) % 16
    let x := (a + f + md5K.getD i 0 + m.getD g 0) % 2 ^ 32
    [d, (b + rotl32 x (md5S.getD i 0)) % 2 ^ 32, b, c]
  | _ => st

/-- MD5 compression of one block into the state. -/
def md5Block (h : List Nat) (block : List Byte) : List Nat :=
  List.zipWith (fun x y => (x + y) % 2 ^ 32) h
    ((List.range 64).foldl (md5Round ((chunks 4 block).map leWord)) h)

/-- Go `md5.Sum(msg)`: the 16-byte MD5 digest. -/
def md5.Sum (msg : List Byte) : List Byte :=
  (((chunks 64 (mdPad (leBytes 8) msg)).foldl md5Block md5Init).map (leBytes 4)).flatten

/-- The two hash algorithms the repository instantiates. -/
inductive HashAlg where
  | sha256
  | md5
deriving DecidableEq, Repr

/-- A Go `hash.Hash`: the algorithm and the bytes written to it so far. -/
structure Hash where
  alg : HashAlg
  written : List Byte
deriving DecidableEq, Repr

/-- Go `sha256.New()`: a SHA-256 hash with nothing written. -/
def sha256.New : Hash := { alg := .sha256, written := [] }

/-- Go `md5.New()`: an MD5 hash with nothing written. -/
def md5.New : Hash := { alg := .md5, written := [] }

/-- Go `h.Write(p)`: adds `p` to the running hash. -/
def Hash.Write (h : Hash) (p : List Byte) : Hash := { h with written := h.written ++ p }

/-- The digest of what has been written to `h`. -/
def Hash.checkSum (h : Hash) : List Byte :=
  match h.alg with
  | .sha256 => sha256.Sum256 h.written
  | .md5 => md5.Sum h.written

/-- Go `h.Sum(b)`: "Sum appends the current hash to b and returns the resulting
slice"; the library does `append(b, digest...)`. The argument `b` is not hashed. -/
def Hash.Sum (h : Hash) (b : Slice) : Slice × Bool := b.append h.checkSum

/-! ## Cipher libraries: constructors -/

/-- A `cipher.Block` as built by one of the block-cipher packages, with its key. -/
inductive Block where
  | aes (key : List Byte)
  | des (key : List Byte)
  | blowfish (key : List Byte)
  | cast5 (key : List Byte)
deriving DecidableEq, Repr

/-- Go `block.BlockSize()`: 16 for AES, 8 for DES, Blowfish and CAST5. -/
def Block.BlockSize : Block → Nat
  | .aes _ => 16
  | .des _ => 8
  | .blowfish _ => 8
  | .cast5 _ => 8

/-- Go `aes.NewCipher`: the key must be 16, 24 or 32 bytes (AES-128/192/256). -/
def aes.NewCipher (key : List Byte) : Res Block :=
  if key.length = 16 ∨ key.length = 24 ∨ key.length = 32 then .ok (.aes key)
  else .err ("crypto/aes: invalid key size " ++ toString key.length)

/-- Go `des.NewCipher`: the key must be 8 bytes. -/
def des.NewCipher (key : List Byte) : Res Block :=
  if key.length = 8 then .ok (.des key)
  else .err ("crypto/des: invalid key size " ++ toString key.length)

/-- Package `blowfish`, `NewCipher`: the key must be 1 to 56 bytes. -/
def blowfish.NewCipher (key : List Byte) : Res Block :=
  if 1 ≤ key.length ∧ key.length ≤ 56 then .ok (.blowfish key)
  else .err ("crypto/blowfish: invalid key size " ++ toString key.length)

/-- Package `cast5`, `NewCipher`: the key must be 16 bytes. -/
def cast5.NewCipher (key : List Byte) : Res Block :=
  if key.length = 16 then .ok (.cast5 key)
  else .err "CAST5: keys must be 16 bytes"

/-- How a stream of one of the libraries was built: the constructor and its arguments. -/
inductive Origin where
  | cfbEncrypter (block : Block) (iv : List Byte)
  | cfbDecrypter (block : Block) (iv : List Byte)
  | ctr (block : Block) (iv : List Byte)
  | rc4 (key : List Byte)
  | chacha20 (key : List Byte) (nonce : List Byte)
deriving DecidableEq, Repr

/-- Go `cipher.NewCFBEncrypter`: panics unless the IV is one block long. -/
def cipher.NewCFBEncrypter (block : Block) (iv : List Byte) : Res Origin :=
  if iv.length = block.BlockSize then .ok (.cfbEncrypter block iv)
  else .panic "cipher.NewCFBEncrypter: IV length must equal block size"

/-- Go `cipher.NewCFBDecrypter`: panics unless the IV is one block long. -/
def cipher.NewCFBDecrypter (block : Block) (iv : List Byte) : Res Origin :=
  if iv.length = block.BlockSize then .ok (.cfbDecrypter block iv)
  else .panic "cipher.NewCFBDecrypter: IV length must equal block size"

/-- Go `cipher.NewCTR`: panics unless the IV is one block long. -/
def cipher.NewCTR (block : Block) (iv : List Byte) : Res Origin :=
  if iv.length = block.BlockSize then .ok (.ctr block iv)
  else .panic "cipher.NewCTR: IV length must equal block size"

/-- Go `rc4.NewCipher`: the key must be 1 to 256 bytes. -/
def rc4.NewCipher (key : List Byte) : Res Origin :=
  if 1 ≤ key.length ∧ key.length ≤ 256 then .ok (.rc4 key)
  else .err ("crypto/rc4: invalid key size " ++ toString key.length)

/-- Package `github.com/skygangsta/chacha20`, `NewCipher(key, nonce)`. The
package is an external dependency; it is taken to check its arguments as the
ChaCha20 package it derives from does: the key must be 32 bytes and the nonce
8, 12 or 24 bytes, which the registry sizes (32, 8) and (32, 12) presuppose. -/
def chacha20.NewCipher (key nonce : List Byte) : Res Origin :=
  if key.length ≠ 32 then .err "key length must be KeySize bytes"
  else if nonce.length = 8 ∨ nonce.length = 12 ∨ nonce.length = 24 then .ok (.chacha20 key nonce)
  else .err "nonce length must be NonceSize/INonceSize/XNonceSize bytes"

/-- A `cipher.AEAD` built by `cipher.NewGCMWithNonceSize`: GCM over `block`
with nonces of `nonceSize` bytes and a 16-byte tag. -/
structure AEAD where
  block : Block
  nonceSize : Nat
deriving DecidableEq, Repr

/-- Go `aead.NonceSize()`. -/
def AEAD.NonceSize (a : AEAD) : Nat := a.nonceSize

/-- Go `cipher.NewGCMWithNonceSize(block, size)`: an error for an empty nonce
and for a block size other than 16. -/
def cipher.NewGCMWithNonceSize (block : Block) (size : Nat) : Res AEAD :=
  if size = 0 then
    .err "cipher: the nonce can't have zero length, or the security of the key will be immediately compromised"
  else if block.BlockSize ≠ 16 then .err "cipher: NewGCM requires 128-bit block cipher"
  else .ok { block := block, nonceSize := size }

/-- The cryptographic transformations of the libraries, which the repository
calls but does not define. -/
structure Primitives where
  /-- The bytes a library stream has produced in total once the bytes `input`
  have been fed to it, in any number of `XORKeyStream` calls, since it was built. -/
  keyStreamXOR : Origin → List Byte → List Byte
  /-- Go `aead.Seal(nil, nonce, plaintext, nil)`. -/
  Seal : AEAD → List Byte → List Byte → List Byte
  /-- Go `aead.Open(nil, nonce, ciphertext, nil)`: the plaintext, or the error message. -/
  Open : AEAD → List Byte → List Byte → Except String (List Byte)

/-- Every stream writes as many bytes as it reads. -/
def Primitives.KeepsLength (P : Primitives) : Prop :=
  ∀ o input, (P.keyStreamXOR o input).length = input.length

/-- Each stream primitive inverts itself under an identical key and IV: a CFB
decrypter undoes the CFB encrypter over the same block and IV, and a CTR, RC4
or ChaCha20 stream undoes a stream built from the same arguments. -/
def Primitives.StreamsInvert (P : Primitives) : Prop :=
  (∀ block iv p,
    P.keyStreamXOR (.cfbDecrypter block iv) (P.keyStreamXOR (.cfbEncrypter block iv) p) = p) ∧
  (∀ block iv p, P.keyStreamXOR (.ctr block iv) (P.keyStreamXOR (.ctr block iv) p) = p) ∧
  (∀ key p, P.keyStreamXOR (.rc4 key) (P.keyStreamXOR (.rc4 key) p) = p) ∧
  (∀ key nonce p,
    P.keyStreamXOR (.chacha20 key nonce) (P.keyStreamXOR (.chacha20 key nonce) p) = p)

/-- GCM appends a 16-byte tag to a ciphertext as long as the plaintext. -/
def Primitives.SealAddsTag (P : Primitives) : Prop :=
  ∀ a nonce p, (P.Seal a nonce p).length = p.length + 16

/-- GCM `Open` inverts `Seal` under an identical key and nonce. -/
def Primitives.OpenInvertsSeal (P : Primitives) : Prop :=
  ∀ a nonce p, P.Open a nonce (P.Seal a nonce p) = .ok p

/-- GCM `Open` rejects any input shorter than the tag. -/
def Primitives.OpenRejectsShort (P : Primitives) : Prop :=
  ∀ a nonce c, c.length < 16 → ∃ e, P.Open a nonce c = .error e

/-! ## gcm.go -/

/-- The struct `gcm` of gcm.go. -/
structure gcm where
  block : Block
  aead : AEAD
  nonce : List Byte
  out : List Byte
  decrypt : Bool
deriving DecidableEq, Repr

/-- What one `XORKeyStream` call leaves behind: the receiver, the destination
slice, and the lines handed to `logger.Info`. -/
structure Call (σ : Type) where
  recv : σ
  dst : Slice
  log : List String
deriving DecidableEq, Repr

/-- The method `(x *gcm) XORKeyStream(dst, src)` of gcm.go. On failure `Open`
returns a nil plaintext, which the tuple assignment stores in `x.out`. -/
def gcm.XORKeyStream (P : Primitives) (x : gcm) (dst : Slice) (src : List Byte) : Res (Call gcm) :=
  if x.decrypt then
    if (dst.cap : Int) < (src.length : Int) - 16 then
      .panic "crypto/cipher: output not enough for input"
    else
      match P.Open x.aead x.nonce src with
      | .error e => .ok { recv := { x with out := [] }, dst := dst, log := [e] }
      | .ok out => .ok { recv := { x with out := out }, dst := copy dst out, log := [] }
  else
    if dst.cap < src.length + 16 then
      .panic "crypto/cipher: output not enough for input"
    else
      let out := P.Seal x.aead x.nonce src
      .ok { recv := { x with out := out }, dst := copy dst out, log := [] }

/-- The method `(x *gcm) BlockSize()` of gcm.go. -/
def gcm.BlockSize (x : gcm) : Nat := x.block.BlockSize

/-- A `cipher.Stream`: a stream of one of the libraries, with the input it has
consumed so far, or the GCM adapter of gcm.go. -/
inductive Stream where
  | lib (origin : Origin) (fed : List Byte)
  | gcm (x : gcm)
deriving DecidableEq, Repr

/-- The function `NewGCMStreamer` of gcm.go. The nonce field is first a zeroed
buffer of `aead.NonceSize()` bytes and is then replaced by the argument. -/
def NewGCMStreamer (block : Block) (nonce : List Byte) (decrypt : Bool) : Res Stream :=
  (cipher.NewGCMWithNonceSize block nonce.length).bind fun aead =>
    let x : gcm :=
      { block := block, aead := aead, nonce := List.replicate aead.NonceSize 0,
        out := [], decrypt := decrypt }
    let x := { x with nonce := nonce }
    .ok (.gcm x)

/-- The interface call `s.XORKeyStream(dst, src)`. A library stream panics when
`dst` is shorter than `src` (the message is the one of the `crypto/cipher`
streams) and otherwise writes the next `len(src)` bytes of its output to the
front of `dst`. -/
def Stream.XORKeyStream (P : Primitives) (s : Stream) (dst : Slice) (src : List Byte) :
    Res (Call Stream) :=
  match s with
  | .lib o fed =>
    if dst.len < src.length then .panic "crypto/cipher: output smaller than input"
    else
      .ok { recv := .lib o (fed ++ src),
            dst := copy dst ((P.keyStreamXOR o (fed ++ src)).drop fed.length),
            log := [] }
  | .gcm x =>
    (x.XORKeyStream P dst src).bind fun r => .ok { recv := .gcm r.recv, dst := r.dst, log := r.log }

/-- The bytes left in `dst` by one call `s.XORKeyStream(dst, p)` with
`dst := make([]byte, len(p))`. -/
def Stream.transform (P : Primitives) (s : Stream) (p : List Byte) : Res (List Byte) :=
  (s.XORKeyStream P (make p.length) p).bind fun r => .ok r.dst.data

/-! ## crypto.go -/

/-- The struct `cipherInfo` of crypto.go. -/
structure cipherInfo where
  keySize : Nat
  ivSize : Nat
  stream : List Byte → List Byte → Bool → Res Stream

/-- The function `newCFBStream` of crypto.go. -/
def newCFBStream (block : Block) (iv : List Byte) (decrypt : Bool) : Res Stream :=
  if !decrypt then
    (cipher.NewCFBEncrypter block iv).bind fun s => .ok (.lib s [])
  else
    (cipher.NewCFBDecrypter block iv).bind fun s => .ok (.lib s [])

/-- The function `newAESGCMStream` of crypto.go. -/
def newAESGCMStream (key nonce : List Byte) (decrypt : Bool) : Res Stream :=
  (aes.NewCipher key).bind fun block => NewGCMStreamer block nonce decrypt

/-- The function `newAESCFBStream` of crypto.go. -/
def newAESCFBStream (key iv : List Byte) (decrypt : Bool) : Res Stream :=
  (aes.NewCipher key).bind fun block => newCFBStream block iv decrypt

/-- The function `newAESCTRStream` of crypto.go; `decrypt` is not used. -/
def newAESCTRStream (key iv : List Byte) (_decrypt : Bool) : Res Stream :=
  (aes.NewCipher key).bind fun block =>
    (cipher.NewCTR block iv).bind fun s => .ok (.lib s [])

/-- The function `newDESCFBStream` of crypto.go. -/
def newDESCFBStream (key iv : List Byte) (decrypt : Bool) : Res Stream :=
  (des.NewCipher key).bind fun block => newCFBStream block iv decrypt

/-- The function `newBlowFishStream` of crypto.go. -/
def newBlowFishStream (key iv : List Byte) (decrypt : Bool) : Res Stream :=
  (blowfish.NewCipher key).bind fun block => newCFBStream block iv decrypt

/-- The function `newCast5Stream` of crypto.go. -/
def newCast5Stream (key iv : List Byte) (decrypt : Bool) : Res Stream :=
  (cast5.NewCipher key).bind fun block => newCFBStream block iv decrypt

/-- The function `newRC4MD5Stream` of crypto.go; `decrypt` is not used. -/
def newRC4MD5Stream (key iv : List Byte) (_decrypt : Bool) : Res Stream :=
  let h := md5.New
  let h := h.Write key
  let h := h.Write iv
  let rc4key := (h.Sum { data := [], tail := [] }).1.data
  (rc4.NewCipher rc4key).bind fun s => .ok (.lib s [])

/-- The function `newChaCha20Stream` of crypto.go; `decrypt` is not used. -/
def newChaCha20Stream (key iv : List Byte) (_decrypt : Bool) : Res Stream :=
  (chacha20.NewCipher key iv).bind fun s => .ok (.lib s [])

/-- The map `cipherMethod` of crypto.go, as the list of its entries. -/
def cipherMethod : List (String × cipherInfo) :=
  [("aes-128-gcm", ⟨16, 32, newAESGCMStream⟩),
   ("aes-192-gcm", ⟨24, 32, newAESGCMStream⟩),
   ("aes-256-gcm", ⟨32, 32, newAESGCMStream⟩),
   ("aes-128-cfb", ⟨16, 16, newAESCFBStream⟩),
   ("aes-192-cfb", ⟨24, 16, newAESCFBStream⟩),
   ("aes-256-cfb", ⟨32, 16, newAESCFBStream⟩),
   ("aes-128-ctr", ⟨16, 16, newAESCTRStream⟩),
   ("aes-192-ctr", ⟨24, 16, newAESCTRStream⟩),
   ("aes-256-ctr", ⟨32, 16, newAESCTRStream⟩),
   ("des-cfb", ⟨8, 8, newDESCFBStream⟩),
   ("bf-cfb", ⟨16, 8, newBlowFishStream⟩),
   ("cast5-cfb", ⟨16, 8, newCast5Stream⟩),
   ("rc4-md5", ⟨16, 16, newRC4MD5Stream⟩),
   ("rc4-md5-6", ⟨16, 6, newRC4MD5Stream⟩),
   ("chacha20", ⟨32, 8, newChaCha20Stream⟩),
   ("chacha20-ietf", ⟨32, 12, newChaCha20Stream⟩)]

/-- The struct `Cipher` of crypto.go. -/
structure Cipher where
  WriteStream : Stream
  ReadStream : Stream
  key : Slice
  info : cipherInfo

/-- The function `NewCipher` of crypto.go.

`c.key` is the caller's slice, so the two `Sum` calls act on its backing array.
`sha256.New().Sum(c.key)` appends the digest of the empty input to the key;
with 32 spare bytes of capacity this happens in place, and `riv`, the first
`ivSize` bytes of the result, then shares the key's array and its capacity.
`sha256.New().Sum(riv)` appends the same digest after the `ivSize` bytes of
`riv`; when `riv` shares the key's array and the capacity suffices, those 32
bytes land on the array from index `ivSize` on, and the key bytes there are
overwritten before the write stream is built from `c.key`. The check
`if err != nil` right after the struct literal tests the still-nil named
result and never fires. -/
def NewCipher (method : String) (key : Slice) : Res Cipher :=
  if key.len = 0 then .err "password can not be empty"
  else
    match cipherMethod.lookup method with
    | none => .err ("Unsupported encryption method: " ++ method)
    | some mi =>
      let sum1 := sha256.New.Sum key
      let key1 := if sum1.2 then key.seenOn sum1.1.array else key
      (sum1.1.sliceTo mi.ivSize).bind fun riv =>
      (mi.stream key1.data riv.data true).bind fun readStream =>
      let sum2 := sha256.New.Sum riv
      let key2 := if sum1.2 && sum2.2 then key1.seenOn sum2.1.array else key1
      (sum2.1.sliceTo mi.ivSize).bind fun wiv =>
      (mi.stream key2.data wiv.data false).bind fun writeStream =>
      .ok { WriteStream := writeStream, ReadStream := readStream, key := key2, info := mi }

/-! ## Auxiliary definitions for the statements -/

/-- Whether a call returned a value. -/
def Res.isOk {α : Type} : Res α → Bool
  | .ok _ => true
  | _ => false

/-- Apply a function to the value a call returned. -/
def Res.map {α β : Type} (f : α → β) (r : Res α) : Res β := r.bind fun a => .ok (f a)

/-- The read stream, the write stream and the key slice of a session. -/
def Cipher.parts (c : Cipher) : Stream × Stream × Slice := (c.ReadStream, c.WriteStream, c.key)

/-- The key size and IV size of a registry entry. -/
def cipherInfo.sizes (mi : cipherInfo) : Nat × Nat := (mi.keySize, mi.ivSize)

/-- The sixteen method identifiers of the registry. -/
def methodNames : List String := cipherMethod.map Prod.fst

/-- The identifiers of the classical family (CFB, CTR, RC4-MD5, ChaCha20). -/
def classicalMethods : List String :=
  ["aes-128-cfb", "aes-192-cfb", "aes-256-cfb", "aes-128-ctr", "aes-192-ctr", "aes-256-ctr",
   "des-cfb", "bf-cfb", "cast5-cfb", "rc4-md5", "rc4-md5-6", "chacha20", "chacha20-ietf"]

/-- The identifiers of the AEAD family. -/
def aeadMethods : List String := ["aes-128-gcm", "aes-192-gcm", "aes-256-gcm"]

/-- The table of section 4.1 of the specification: identifier, keySize, ivSize. -/
def specTable : List (String × Nat × Nat) :=
  [("aes-128-gcm", 16, 32), ("aes-192-gcm", 24, 32), ("aes-256-gcm", 32, 32),
   ("aes-128-cfb", 16, 16), ("aes-192-cfb", 24, 16), ("aes-256-cfb", 32, 16),
   ("aes-128-ctr", 16, 16), ("aes-192-ctr", 24, 16), ("aes-256-ctr", 32, 16),
   ("des-cfb", 8, 8), ("bf-cfb", 16, 8), ("cast5-cfb", 16, 8),
   ("rc4-md5", 16, 16), ("rc4-md5-6", 16, 6), ("chacha20", 32, 8), ("chacha20-ietf", 32, 12)]

/-- The read IV as section 4.2 of the specification words it: the leading
`ivSize` bytes of the SHA-256 digest of the key bytes. -/
def specReadIV (key : List Byte) (ivSize : Nat) : List Byte :=
  (sha256.Sum256 key).take ivSize

/-- The write IV as section 4.2 of the specification words it: the leading
`ivSize` bytes of the SHA-256 digest of the read IV bytes. -/
def specWriteIV (key : List Byte) (ivSize : Nat) : List Byte :=
  (sha256.Sum256 (specReadIV key ivSize)).take ivSize

/-- The SHA-256 digest of the empty input, which is what `sha256.New().Sum(b)` appends. -/
def emptyDigest : List Byte :=
  [0xe3, 0xb0, 0xc4, 0x42, 0x98, 0xfc, 0x1c, 0x14, 0x9a, 0xfb, 0xf4, 0xc8, 0x99, 0x6f, 0xb9, 0x24,
   0x27, 0xae, 0x41, 0xe4, 0x64, 0x9b, 0x93, 0x4c, 0xa4, 0x95, 0x99, 0x1b, 0x78, 0x52, 0xb8, 0x55]

/-- The IV that `NewCipher` hands to both constructor calls: the leading
`ivSize` bytes of the key followed by the digest of the empty input. -/
def derivedIV (key : Slice) (ivSize : Nat) : List Byte :=
  (key.data ++ emptyDigest).take ivSize

/-- The key slice as `NewCipher` leaves it: untouched without 32 spare bytes of
capacity; otherwise the digest sits right after the key, and, if the capacity
reaches `ivSize + 32`, once more from index `ivSize` on. -/
def keyAfter (key : Slice) (ivSize : Nat) : Slice :=
  if 32 ≤ key.tail.length then
    let a := key.data ++ emptyDigest ++ key.tail.drop 32
    if ivSize + 32 ≤ key.cap then
      key.seenOn (a.take ivSize ++ emptyDigest ++ a.drop (ivSize + 32))
    else key.seenOn a
  else key

/-- The key bytes of a block. -/
def Block.key : Block → List Byte
  | .aes k => k
  | .des k => k
  | .blowfish k => k
  | .cast5 k => k

/-- For the examples: one byte computed from the arguments a stream was built from. -/
def Origin.pad : Origin → Nat
  | .cfbEncrypter b iv => (b.key ++ iv).sum % 256
  | .cfbDecrypter b iv => (b.key ++ iv).sum % 256
  | .ctr b iv => (b.key ++ iv).sum % 256
  | .rc4 key => key.sum % 256
  | .chacha20 key nonce => (key ++ nonce).sum % 256

/-- For the examples: one byte computed from the key and the nonce of a GCM call. -/
def AEAD.pad (a : AEAD) (nonce : List Byte) : Nat := (a.block.key ++ nonce).sum % 256

/-- Example primitives for evaluating the definitions on concrete inputs: a
stream XORs every byte with the pad of its origin; sealing does the same and
appends sixteen copies of the pad as the tag; opening checks that tag. -/
def toyPrimitives : Primitives where
  keyStreamXOR o input := input.map fun b => b ^^^ o.pad
  Seal a nonce p := (p.map fun b => b ^^^ a.pad nonce) ++ List.replicate 16 (a.pad nonce)
  Open a nonce c :=
    if 16 ≤ c.length ∧ c.drop (c.length - 16) = List.replicate 16 (a.pad nonce) then
      .ok ((c.take (c.length - 16)).map fun b => b ^^^ a.pad nonce)
    else .error "cipher: message authentication failed"

/-- A 16-byte key with no spare capacity, as `[]byte` literal `1, 2, ..., 16`. -/
def key16 : Slice := { data := (List.range 16).map (· + 1), tail := [] }

/-- A 32-byte key of zeros in a 64-byte array: `make([]byte, 32, 64)`. -/
def key32cap64 : Slice := { data := List.replicate 32 0, tail := List.replicate 32 0 }


/-- The expression `sha256.New().Sum(c.key)[:c.info.ivSize]` of `NewCipher`
(crypto.go, line 138), which computes `riv`. -/
def NewCipher.riv (key : Slice) (ivSize : Nat) : Res Slice :=
  (sha256.New.Sum key).1.sliceTo ivSize

/-- The expression `sha256.New().Sum(riv)[:c.info.ivSize]` of `NewCipher`
(crypto.go, line 143), which computes `wiv`. -/
def NewCipher.wiv (riv : Slice) (ivSize : Nat) : Res Slice :=
  (sha256.New.Sum riv).1.sliceTo ivSize

/-- The adapter after a sequence of `XORKeyStream(dst, src)` calls, given as
the list of their arguments; a call that panics assigns nothing, so it leaves
the struct as it was. -/
def gcm.afterCalls (P : Primitives) (x : gcm) : List (Slice × List Byte) → gcm
  | [] => x
  | (dst, src) :: rest =>
    match x.XORKeyStream P dst src with
    | .ok r => gcm.afterCalls P r.recv rest
    | .err _ => gcm.afterCalls P x rest
    | .panic _ => gcm.afterCalls P x rest

/-- The 32-byte key 1, 2, ..., 32 with no spare capacity. -/
def key32 : Slice := { data := (List.range 32).map (· + 1), tail := [] }

/-- The same 32 key bytes held in a 64-byte array: 32 spare bytes of capacity. -/
def key32spare : Slice := { data := (List.range 32).map (· + 1), tail := List.replicate 32 0 }

/-- The 16 key bytes 1, 2, ..., 16 held in a 48-byte array: 32 spare bytes of capacity. -/
def key16spare : Slice := { data := (List.range 16).map (· + 1), tail := List.replicate 32 0 }


/-! ## Basic facts -/

/-- What `sha256.New().Sum(b)` appends is the digest of the empty input. -/
theorem checkSum_sha256_New : sha256.New.checkSum = emptyDigest := by decide!

/-- The digest of the empty input has 32 bytes. -/
theorem emptyDigest_length : emptyDigest.length = 32 := by decide

/-- A successful registry lookup returns one of the entries. -/
theorem lookup_mem {β : Type} (l : List (String × β)) (k : String) (b : β)
    (h : l.lookup k = some b) : (k, b) ∈ l := by
  induction l with
  | nil => simp at h
  | cons e es ih =>
    obtain ⟨k', b'⟩ := e
    rw [List.lookup_cons] at h
    by_cases hk : (k == k') = true
    · rw [hk] at h
      have hkk : k = k' := by simpa using hk
      have hb : b' = b := by simpa using h
      subst hkk hb
      exact List.mem_cons_self _ _
    · have hk2 : (k == k') = false := by simpa using hk
      rw [hk2] at h
      exact List.mem_cons_of_mem _ (ih h)

/-- A method name outside the registry is not found. -/
theorem lookup_none_of_not_mem (method : String) (h : method ∉ methodNames) :
    cipherMethod.lookup method = none := by
  rw [List.lookup_eq_none_iff]
  intro p hp
  by_contra hpm
  apply h
  have : method = p.1 := by simpa using hpm
  rw [this]
  exact List.mem_map_of_mem Prod.fst hp

/-! ## The registry -/

/-- C3: the registry has exactly the sixteen entries of the table of section
4.1, and looking up each identifier of the table yields the keySize and ivSize
listed there. -/
theorem registry_matches_spec_table :
    cipherMethod.map (fun e => (e.1, e.2.keySize, e.2.ivSize)) = specTable ∧
    specTable.length = 16 ∧
    specTable.all (fun e =>
      (cipherMethod.lookup e.1).map cipherInfo.sizes == some e.2) = true := by
  refine ⟨by decide, by decide, by decide⟩

/-! ## Rejections of NewCipher -/

/-- C8: with an empty key `NewCipher` returns the error "password can not be
empty" and no session, whatever the method string, registered or not. -/
theorem NewCipher_empty_key (method : String) (key : Slice) (h : key.len = 0) :
    NewCipher method key = .err "password can not be empty" := by
  simp [NewCipher, h]

/-- The empty key is rejected for a registered and for an unregistered method alike. -/
theorem NewCipher_empty_key_witness :
    Slice.len ⟨[], []⟩ = 0 ∧
    NewCipher "aes-256-gcm" ⟨[], []⟩ = .err "password can not be empty" ∧
    NewCipher "not-a-real-method" ⟨[], []⟩ = .err "password can not be empty" :=
  ⟨rfl, NewCipher_empty_key "aes-256-gcm" ⟨[], []⟩ rfl,
    NewCipher_empty_key "not-a-real-method" ⟨[], []⟩ rfl⟩

/-- C7: for a non-empty key and a method string that is not one of the sixteen
registered identifiers, `NewCipher` returns no session but the error
"Unsupported encryption method: " followed by the method string, so the
message contains the offending string. -/
theorem NewCipher_unsupported_method (method : String) (key : Slice)
    (hk : key.len ≠ 0) (hm : method ∉ methodNames) :
    NewCipher method key = .err ("Unsupported encryption method: " ++ method) ∧
    method.data <:+: ("Unsupported encryption method: " ++ method).data := by
  refine ⟨?_, ?_⟩
  · simp [NewCipher, hk, lookup_none_of_not_mem method hm]
  · rw [String.data_append]
    exact (List.suffix_append _ _).isInfix


/-- The two unregistered method strings named by the specification. -/
theorem NewCipher_unsupported_method_witness :
    (Slice.len ⟨[1], []⟩ ≠ 0 ∧ "not-a-real-method" ∉ methodNames ∧ "" ∉ methodNames) ∧
    (NewCipher "not-a-real-method" ⟨[1], []⟩ =
        .err "Unsupported encryption method: not-a-real-method" ∧
      "not-a-real-method".data <:+: "Unsupported encryption method: not-a-real-method".data) ∧
    NewCipher "" ⟨[1], []⟩ = .err "Unsupported encryption method: " :=
  ⟨⟨by decide, by decide, by decide⟩,
    NewCipher_unsupported_method "not-a-real-method" ⟨[1], []⟩ (by decide) (by decide),
    (NewCipher_unsupported_method "" ⟨[1], []⟩ (by decide) (by decide)).1⟩

/-! ## IV derivation on concrete keys -/

/-- C4: for "aes-128-cfb" and the 16-byte key 1, 2, ..., 16 the session is
built, and the IV handed to the read constructor is the key itself, the IV
handed to the write constructor is again the key; the leading 16 bytes of the
SHA-256 digest of the key, and of the digest of that, are other bytes. -/
theorem NewCipher_ivs_are_not_digests :
    (NewCipher "aes-128-cfb" key16).map Cipher.parts =
      .ok (.lib (.cfbDecrypter (.aes key16.data) key16.data) [],
           .lib (.cfbEncrypter (.aes key16.data) key16.data) [], key16) ∧
    specReadIV key16.data 16 =
      [0x5d, 0xfb, 0xab, 0xee, 0xdf, 0x31, 0x8b, 0xf3, 0x3c, 0x09, 0x27, 0xc4, 0x3d, 0x76, 0x30, 0xf5] ∧
    specReadIV key16.data 16 ≠ key16.data ∧
    specWriteIV key16.data 16 ≠ key16.data := by
  refine ⟨by decide!, by decide!, by decide!, by decide!⟩


set_option maxRecDepth 100000 in
/-! ## The example primitives obey the laws assumed of the libraries -/

/-- XOR with the same byte twice is the identity. -/
theorem map_xor_xor (k : Nat) (p : List Byte) :
    (p.map fun b => b ^^^ k).map (fun b => b ^^^ k) = p := by
  simp [List.map_map, Function.comp_def, Nat.xor_cancel_right]

theorem toyPrimitives_keepsLength : toyPrimitives.KeepsLength := by
  intro o input
  simp [toyPrimitives]

theorem toyPrimitives_streamsInvert : toyPrimitives.StreamsInvert := by
  refine ⟨?_, ?_, ?_, ?_⟩
  · intro b iv p; exact map_xor_xor _ p
  · intro b iv p; exact map_xor_xor _ p
  · intro k p; exact map_xor_xor _ p
  · intro k n p; exact map_xor_xor _ p

theorem toyPrimitives_sealAddsTag : toyPrimitives.SealAddsTag := by
  intro a nonce p
  simp [toyPrimitives]

theorem toyPrimitives_openInvertsSeal : toyPrimitives.OpenInvertsSeal := by
  intro a nonce p
  simp [toyPrimitives, List.map_map, Function.comp_def, Nat.xor_cancel_right]

theorem toyPrimitives_openRejectsShort : toyPrimitives.OpenRejectsShort := by
  intro a nonce c hc
  refine ⟨"cipher: message authentication failed", ?_⟩
  simp [toyPrimitives]
  omega

/-- C5: for "chacha20-ietf" and a 32-byte key the session is built and its two
streams are built from the same key and the same 12-byte nonce: the read IV
and the write IV are one and the same byte string, the first 12 key bytes. -/
theorem NewCipher_read_iv_equals_write_iv :
    (NewCipher "chacha20-ietf" ⟨(List.range 32).map (· + 1), []⟩).map Cipher.parts =
      .ok (.lib (.chacha20 ((List.range 32).map (· + 1)) ((List.range 12).map (· + 1))) [],
           .lib (.chacha20 ((List.range 32).map (· + 1)) ((List.range 12).map (· + 1))) [],
           ⟨(List.range 32).map (· + 1), []⟩) := by
  decide!

set_option maxRecDepth 100000 in
/-- C6, counterexample: "aes-256-cfb" has keySize 32, yet with the 16-byte key
1, 2, ..., 16 `NewCipher` returns a session (an AES-128 one). -/
theorem NewCipher_accepts_short_key :
    (cipherMethod.lookup "aes-256-cfb").map cipherInfo.sizes = some (32, 16) ∧
    key16.len = 16 ∧
    (NewCipher "aes-256-cfb" key16).map Cipher.parts =
      .ok (.lib (.cfbDecrypter (.aes key16.data) key16.data) [],
           .lib (.cfbEncrypter (.aes key16.data) key16.data) [], key16) := by
  refine ⟨by decide, by decide, by decide!⟩

set_option maxRecDepth 100000 in
/-- C1: for "aes-256-cfb" and a 32-byte zero key, a session built from the key
in an array of exactly 32 bytes has both streams keyed with the key; a session
built from the same key bytes held in a 64-byte array has its read stream keyed
with the key as passed, but its write stream keyed with the key whose bytes 16
to 31 have been overwritten by the digest of the empty input. With example
primitives that keep lengths and invert themselves under an identical key and
IV, encrypting the byte 7 with that write stream and decrypting with the read
stream (the same in both sessions) returns 148, not 7. -/
theorem classical_roundtrip_broken_by_key_overwrite :
    (toyPrimitives.KeepsLength ∧ toyPrimitives.StreamsInvert) ∧
    (NewCipher "aes-256-cfb" ⟨List.replicate 32 0, []⟩).map Cipher.parts =
      .ok (.lib (.cfbDecrypter (.aes (List.replicate 32 0)) (List.replicate 16 0)) [],
           .lib (.cfbEncrypter (.aes (List.replicate 32 0)) (List.replicate 16 0)) [],
           ⟨List.replicate 32 0, []⟩) ∧
    (NewCipher "aes-256-cfb" key32cap64).map Cipher.parts =
      .ok (.lib (.cfbDecrypter (.aes (List.replicate 32 0)) (List.replicate 16 0)) [],
           .lib (.cfbEncrypter (.aes (List.replicate 16 0 ++ emptyDigest.take 16))
             (List.replicate 16 0)) [],
           ⟨List.replicate 16 0 ++ emptyDigest.take 16, emptyDigest.drop 16 ++ emptyDigest.drop 16⟩) ∧
    (Stream.transform toyPrimitives
        (.lib (.cfbEncrypter (.aes (List.replicate 16 0 ++ emptyDigest.take 16))
          (List.replicate 16 0)) []) [7]).bind
      (Stream.transform toyPrimitives
        (.lib (.cfbDecrypter (.aes (List.replicate 32 0)) (List.replicate 16 0)) [])) =
      .ok [148] := by
  exact ⟨⟨toyPrimitives_keepsLength, toyPrimitives_streamsInvert⟩, by decide!, by decide!,
    by decide!⟩


/-! ## What NewCipher computes -/

theorem Sum_sha256_New (b : Slice) : sha256.New.Sum b = b.append emptyDigest := by
  simp [Hash.Sum, checkSum_sha256_New]

theorem derivedIV_length (key : Slice) (n : Nat) (hn : n ≤ 32) :
    (derivedIV key n).length = n := by
  simp [derivedIV, emptyDigest_length]
  omega

theorem keyAfter_len (key : Slice) (n : Nat) : (keyAfter key n).data.length = key.data.length := by
  unfold keyAfter
  split
  · split
    · simp [Slice.seenOn, Slice.len, Slice.cap, emptyDigest_length] at *
      omega
    · simp [Slice.seenOn, Slice.len, Slice.cap, emptyDigest_length] at *
  · rfl

/-- Appending to a slice and slicing the result back to the old length gives the old bytes. -/
theorem sliceTo_append (s : Slice) (xs : List Byte) :
    (s.append xs).1.sliceTo s.len =
      .ok { data := s.data, tail := (s.append xs).1.array.drop s.len } := by
  unfold Slice.append
  split
  · simp [Slice.sliceTo, Slice.cap, Slice.array, Slice.len, List.take_append_of_le_length]
    omega
  · simp [Slice.sliceTo, Slice.cap, Slice.array, Slice.len, List.take_append_of_le_length]

/-- For a registered method and a non-empty key, `NewCipher` calls the
constructor with the key and `derivedIV` for reading, then with the key as
`keyAfter` describes it and the same `derivedIV` for writing. -/
theorem NewCipher_eq (method : String) (key : Slice) (mi : cipherInfo)
    (hk : key.len ≠ 0) (hm : cipherMethod.lookup method = some mi) (hiv : mi.ivSize ≤ 32) :
    NewCipher method key =
      (mi.stream key.data (derivedIV key mi.ivSize) true).bind fun rs =>
      (mi.stream (keyAfter key mi.ivSize).data (derivedIV key mi.ivSize) false).bind fun ws =>
      .ok { WriteStream := ws, ReadStream := rs, key := keyAfter key mi.ivSize, info := mi } := by
  have hD := emptyDigest_length
  have hlen := derivedIV_length key mi.ivSize hiv
  unfold NewCipher
  simp only [hk, if_false, hm, Sum_sha256_New]
  by_cases hT : 32 ≤ key.tail.length
  · have hs1 : key.append emptyDigest =
        ({ data := key.data ++ emptyDigest, tail := key.tail.drop 32 }, true) := by
      simp [Slice.append, hD, hT]
    have hk1 : (key.seenOn (key.data ++ emptyDigest ++ key.tail.drop 32)).data = key.data := by
      simp [Slice.seenOn, Slice.len]
    have hk1len : (key.seenOn (key.data ++ emptyDigest ++ key.tail.drop 32)).len = key.len := by
      unfold Slice.len
      rw [hk1]
    have hr : Slice.sliceTo { data := key.data ++ emptyDigest, tail := key.tail.drop 32 } mi.ivSize =
        .ok { data := derivedIV key mi.ivSize,
              tail := (key.data ++ emptyDigest ++ key.tail.drop 32).drop mi.ivSize } := by
      have h2 : mi.ivSize ≤ (key.data ++ emptyDigest).length := by simp [hD]; omega
      have h3 : mi.ivSize ≤ key.data.length + 32 + (key.tail.length - 32) := by omega
      have h4 : List.take mi.ivSize (key.data ++ (emptyDigest ++ List.drop 32 key.tail)) =
          List.take mi.ivSize (key.data ++ emptyDigest) := by
        rw [← List.append_assoc, List.take_append_of_le_length h2]
      simp [Slice.sliceTo, Slice.cap, Slice.array, derivedIV, hD, h3, h4]
    simp only [hs1, Slice.array, hr, Res.bind, hk1, if_true]
    cases h1 : mi.stream key.data (derivedIV key mi.ivSize) true with
    | err m => rfl
    | panic m => rfl
    | ok rs =>
      simp only []
      have hw := sliceTo_append (Slice.mk (derivedIV key mi.ivSize)
              ((key.data ++ emptyDigest ++ key.tail.drop 32).drop mi.ivSize)) emptyDigest
      simp only [Slice.len, hlen] at hw
      rw [hw]
      simp only []
      obtain ⟨s2, hs2⟩ : ∃ s2, s2 = Slice.append (Slice.mk (derivedIV key mi.ivSize)
              ((key.data ++ emptyDigest ++ key.tail.drop 32).drop mi.ivSize)) emptyDigest := ⟨_, rfl⟩
      rw [← hs2]
      have hk2 : (if (true && s2.2) = true
            then (key.seenOn (key.data ++ emptyDigest ++ key.tail.drop 32)).seenOn
              (s2.1.data ++ s2.1.tail)
            else key.seenOn (key.data ++ emptyDigest ++ key.tail.drop 32)) =
          keyAfter key mi.ivSize := by
        have h2 : mi.ivSize ≤ (key.data ++ emptyDigest).length := by simp [hD]; omega
        have h4 : derivedIV key mi.ivSize =
            List.take mi.ivSize (key.data ++ emptyDigest ++ List.drop 32 key.tail) := by
          rw [List.take_append_of_le_length h2]; rfl
        subst hs2
        unfold keyAfter Slice.append
        simp only [hT, if_true, Slice.cap, hD, List.length_drop, List.length_append]
        by_cases hc : mi.ivSize + 32 ≤ key.data.length + key.tail.length
        · have h5 : 32 ≤ key.data.length + 32 + (key.tail.length - 32) - mi.ivSize := by omega
          have hL : (Slice.mk (List.take key.len (key.data ++ emptyDigest ++ List.drop 32 key.tail))
              (List.drop key.len (key.data ++ emptyDigest ++ List.drop 32 key.tail))).len = key.len := by
            simp [Slice.len]
          simp only [h5, hc, if_true, Bool.and_self, Slice.seenOn, hL, List.drop_drop, h4]
        · have h5 : ¬ 32 ≤ key.data.length + 32 + (key.tail.length - 32) - mi.ivSize := by omega
          simp [h5, hc]
      rw [hk2]
  · have hs1 : key.append emptyDigest = ({ data := key.data ++ emptyDigest, tail := [] }, false) := by
      simp [Slice.append, hD, hT]
    have hke : keyAfter key mi.ivSize = key := by simp [keyAfter, hT]
    simp only [hs1, hke]
    have hr : Slice.sliceTo { data := key.data ++ emptyDigest, tail := [] } mi.ivSize =
        .ok { data := derivedIV key mi.ivSize, tail := (key.data ++ emptyDigest).drop mi.ivSize } := by
      simp [Slice.sliceTo, Slice.cap, Slice.array, derivedIV, hD]
      omega
    simp only [hr, Res.bind, Bool.false_and, Bool.false_eq_true, if_false]
    cases h1 : mi.stream key.data (derivedIV key mi.ivSize) true with
    | err m => rfl
    | panic m => rfl
    | ok rs =>
      simp only []
      have hw := sliceTo_append (Slice.mk (derivedIV key mi.ivSize)
              ((key.data ++ emptyDigest).drop mi.ivSize)) emptyDigest
      simp only [Slice.len, hlen] at hw
      rw [hw]


/-- Without 32 spare bytes of capacity `NewCipher` leaves the key slice as it was. -/
theorem keyAfter_of_small_tail (key : Slice) (n : Nat) (h : key.tail.length < 32) :
    keyAfter key n = key := by
  simp [keyAfter, Nat.not_le.mpr h]

/-- When the key is no longer than the IV, its bytes are not overwritten. -/
theorem keyAfter_data_of_len_le (key : Slice) (n : Nat) (h : key.len ≤ n) :
    (keyAfter key n).data = key.data := by
  have hD := emptyDigest_length
  unfold Slice.len at h
  unfold keyAfter
  split
  · split
    · simp only [Slice.seenOn, Slice.len]
      rw [List.append_assoc, List.take_append_of_le_length, List.take_take]
      · simp [List.take_append_of_le_length, h]
      · simp [hD]; omega
    · simp [Slice.seenOn, Slice.len]
  · rfl

/-- A registered method is one of the sixteen entries. -/
theorem registry_cases (method : String) (mi : cipherInfo)
    (h : cipherMethod.lookup method = some mi) :
    (method, mi) ∈ cipherMethod := lookup_mem _ _ _ h

/-- A session is only ever returned for a non-empty key. -/
theorem NewCipher_ok_key_ne (method : String) (key : Slice) (c : Cipher)
    (h : NewCipher method key = .ok c) : key.len ≠ 0 := by
  intro h0
  simp [NewCipher, h0] at h

/-- The sessions of the AEAD family: both streams are GCM adapters over AES
with the key as passed and the same 32-byte nonce, one per direction. -/
theorem NewCipher_aead (method : String) (key : Slice) (c : Cipher)
    (hm : method ∈ aeadMethods) (hc : NewCipher method key = .ok c) :
    c.ReadStream = .gcm ⟨.aes key.data, ⟨.aes key.data, 32⟩, derivedIV key 32, [], true⟩ ∧
    c.WriteStream = .gcm ⟨.aes key.data, ⟨.aes key.data, 32⟩, derivedIV key 32, [], false⟩ := by
  have hk := NewCipher_ok_key_ne method key c hc
  have hlen := derivedIV_length key 32 (le_refl 32)
  have hlook : ∃ ks, cipherMethod.lookup method = some ⟨ks, 32, newAESGCMStream⟩ := by
    simp only [aeadMethods, List.mem_cons, List.mem_singleton, List.not_mem_nil, or_false] at hm
    rcases hm with h | h | h <;> subst h
    · exact ⟨16, rfl⟩
    · exact ⟨24, rfl⟩
    · exact ⟨32, rfl⟩
  obtain ⟨ks, hlook⟩ := hlook
  rw [NewCipher_eq method key _ hk hlook (le_refl 32)] at hc
  simp only [newAESGCMStream, aes.NewCipher] at hc
  by_cases hkl : key.data.length = 16 ∨ key.data.length = 24 ∨ key.data.length = 32
  · have hle : key.len ≤ 32 := by unfold Slice.len; omega
    have hka := keyAfter_data_of_len_le key 32 hle
    have hkl2 : (keyAfter key 32).data.length = 16 ∨ (keyAfter key 32).data.length = 24 ∨
        (keyAfter key 32).data.length = 32 := by rw [hka]; exact hkl
    simp only [hkl, hkl2, if_true, Res.bind, NewGCMStreamer, cipher.NewGCMWithNonceSize, hlen,
      Block.BlockSize, hka] at hc
    simp at hc
    subst hc
    exact ⟨rfl, rfl⟩
  · simp [hkl, Res.bind] at hc


/-! ## The GCM adapter -/

theorem Res.exists_of_isOk {α : Type} (r : Res α) (h : r.isOk = true) : ∃ a, r = .ok a := by
  cases r with
  | ok a => exact ⟨a, rfl⟩
  | err m => cases h
  | panic m => cases h

/-- Copying a source that is at least as long as the destination's prefix of
interest: when `src` fits into `dst`, `dst` starts with `src` afterwards. -/
theorem copy_take (dst : Slice) (src : List Byte) (h : src.length ≤ dst.len) :
    (copy dst src).data.take src.length = src := by
  unfold Slice.len at h
  simp [copy, Slice.len, Nat.min_eq_right h, List.take_append_of_le_length]

/-- Copying into a destination of exactly the source's length stores the source. -/
theorem copy_exact (dst : Slice) (src : List Byte) (h : dst.len = src.length) :
    (copy dst src).data = src := by
  unfold Slice.len at h
  simp [copy, Slice.len, h]

/-- C9: a GCM adapter built for decryption, on a call that passes the capacity
check and whose authenticated opening fails with error `e`, returns normally
with `dst` exactly as it was (its bytes and its spare capacity), having logged
`e`; and when `Open` rejects inputs shorter than the tag, every call with a
`src` shorter than 16 bytes passes the check and leaves `dst` as it was. -/
theorem gcm_open_failure_writes_nothing (P : Primitives) (x : gcm) (dst : Slice)
    (src : List Byte) (hd : x.decrypt = true) :
    (∀ e, ¬ ((dst.cap : Int) < (src.length : Int) - 16) →
      P.Open x.aead x.nonce src = .error e →
      x.XORKeyStream P dst src = .ok ⟨{ x with out := [] }, dst, [e]⟩) ∧
    (P.OpenRejectsShort → src.length < 16 →
      ∃ r, x.XORKeyStream P dst src = .ok r ∧ r.dst = dst) := by
  refine ⟨?_, ?_⟩
  · intro e hcap hfail
    simp [gcm.XORKeyStream, hd, hcap, hfail]
  · intro hshort hlen
    obtain ⟨e, he⟩ := hshort x.aead x.nonce src hlen
    have hcap : ¬ ((dst.cap : Int) < (src.length : Int) - 16) := by omega
    exact ⟨⟨{ x with out := [] }, dst, [e]⟩, by simp [gcm.XORKeyStream, hd, hcap, he], rfl⟩

/-- A 17-byte source with a wrong tag, and a 2-byte source, on a 3-byte destination. -/
theorem gcm_open_failure_writes_nothing_witness :
    (gcm.XORKeyStream toyPrimitives ⟨.aes key16.data, ⟨.aes key16.data, 32⟩, List.replicate 32 0, [9], true⟩
        ⟨[1, 2, 3], [4]⟩ (List.replicate 17 5) =
      .ok ⟨⟨.aes key16.data, ⟨.aes key16.data, 32⟩, List.replicate 32 0, [], true⟩,
        ⟨[1, 2, 3], [4]⟩, ["cipher: message authentication failed"]⟩) ∧
    (∃ r, gcm.XORKeyStream toyPrimitives
        ⟨.aes key16.data, ⟨.aes key16.data, 32⟩, List.replicate 32 0, [9], true⟩
        ⟨[1, 2, 3], [4]⟩ [5, 5] = .ok r ∧ r.dst = ⟨[1, 2, 3], [4]⟩) :=
  ⟨(gcm_open_failure_writes_nothing toyPrimitives
      ⟨.aes key16.data, ⟨.aes key16.data, 32⟩, List.replicate 32 0, [9], true⟩
      ⟨[1, 2, 3], [4]⟩ (List.replicate 17 5) rfl).1 _ (by decide) rfl,
   (gcm_open_failure_writes_nothing toyPrimitives
      ⟨.aes key16.data, ⟨.aes key16.data, 32⟩, List.replicate 32 0, [9], true⟩
      ⟨[1, 2, 3], [4]⟩ [5, 5] rfl).2 toyPrimitives_openRejectsShort (by decide)⟩

/-- C10: an encryption adapter called with an empty destination of capacity 17
and a one-byte source passes the capacity check (17 is 1 + 16) and seals the
byte, keeping the sealed output in its `out` field, but `copy` writes only
`len(dst)` bytes, here none: the destination holds nothing of the sealed output. -/
theorem gcm_seal_not_copied_into_spare_capacity (P : Primitives) (block : Block) (aead : AEAD)
    (nonce out : List Byte) :
    Slice.cap ⟨[], List.replicate 17 0⟩ = 17 ∧
    gcm.XORKeyStream P ⟨block, aead, nonce, out, false⟩ ⟨[], List.replicate 17 0⟩ [7] =
      .ok ⟨⟨block, aead, nonce, P.Seal aead nonce [7], false⟩, ⟨[], List.replicate 17 0⟩, []⟩ := by
  refine ⟨by decide, ?_⟩
  simp [gcm.XORKeyStream, Slice.cap, copy, Slice.len]

/-- When the destination is long enough (its length, not only its capacity, is
at least `len(src) + 16`), an encryption adapter leaves the sealed output at
the front of the destination. -/
theorem gcm_seal_fills_long_dst (P : Primitives) (hTag : P.SealAddsTag) (x : gcm) (dst : Slice)
    (src : List Byte) (hd : x.decrypt = false) (hlen : src.length + 16 ≤ dst.len) :
    ∃ r, x.XORKeyStream P dst src = .ok r ∧
      r.dst.data.take (src.length + 16) = P.Seal x.aead x.nonce src ∧
      r.recv = { x with out := P.Seal x.aead x.nonce src } := by
  have hcap : ¬ (dst.cap < src.length + 16) := by
    unfold Slice.len at hlen; unfold Slice.cap; omega
  refine ⟨⟨{ x with out := P.Seal x.aead x.nonce src }, copy dst (P.Seal x.aead x.nonce src), []⟩,
    by simp [gcm.XORKeyStream, hd, hcap], ?_, rfl⟩
  have h := copy_take dst (P.Seal x.aead x.nonce src) (by rw [hTag]; exact hlen)
  rw [hTag] at h
  exact h

/-- C2: for an AEAD-family method and a key for which `NewCipher` returns a
session, sealing `p` with the session's WriteStream into a destination of
length `len(p) + 16` and opening the sealed buffer with the session's
ReadStream into a destination of length at least `len(p)` both return
normally and leave `p` in the first `len(p)` bytes of the second destination,
provided GCM appends a 16-byte tag and `Open` inverts `Seal` under an
identical key and nonce. -/
theorem aead_roundtrip (P : Primitives) (hTag : P.SealAddsTag) (hInv : P.OpenInvertsSeal)
    (method : String) (key : Slice) (c : Cipher) (p : List Byte) (dst1 dst2 : Slice)
    (hm : method ∈ aeadMethods) (hc : NewCipher method key = .ok c)
    (h1 : dst1.len = p.length + 16) (h2 : p.length ≤ dst2.len) :
    ∃ r1 r2, c.WriteStream.XORKeyStream P dst1 p = .ok r1 ∧
      c.ReadStream.XORKeyStream P dst2 r1.dst.data = .ok r2 ∧
      r2.dst.data.take p.length = p := by
  obtain ⟨hr, hw⟩ := NewCipher_aead method key c hm hc
  have hs := hTag ⟨.aes key.data, 32⟩ (derivedIV key 32) p
  have hcap1 : ¬ (dst1.cap < p.length + 16) := by
    unfold Slice.len at h1; unfold Slice.cap; omega
  have hcap2 : ¬ ((dst2.cap : Int) < ((P.Seal ⟨.aes key.data, 32⟩ (derivedIV key 32) p).length : Int) - 16) := by
    rw [hs]; unfold Slice.len at h2; unfold Slice.cap; omega
  have hcopy : (copy dst1 (P.Seal ⟨.aes key.data, 32⟩ (derivedIV key 32) p)).data =
      P.Seal ⟨.aes key.data, 32⟩ (derivedIV key 32) p := copy_exact _ _ (by rw [hs]; exact h1)
  refine ⟨⟨.gcm ⟨.aes key.data, ⟨.aes key.data, 32⟩, derivedIV key 32,
      P.Seal ⟨.aes key.data, 32⟩ (derivedIV key 32) p, false⟩,
      copy dst1 (P.Seal ⟨.aes key.data, 32⟩ (derivedIV key 32) p), []⟩,
    ⟨.gcm ⟨.aes key.data, ⟨.aes key.data, 32⟩, derivedIV key 32, p, true⟩, copy dst2 p, []⟩,
    ?_, ?_, ?_⟩
  · rw [hw]
    simp [Stream.XORKeyStream, gcm.XORKeyStream, hcap1, Res.bind]
  · rw [hr]
    simp only [hcopy]
    simp [Stream.XORKeyStream, gcm.XORKeyStream, hcap2, hInv _ _ p, Res.bind]
  · exact copy_take dst2 p h2

/-- The round trip of three bytes under "aes-128-gcm" with the example primitives. -/
theorem aead_roundtrip_witness :
    ∃ c r1 r2, NewCipher "aes-128-gcm" key16 = .ok c ∧
      c.WriteStream.XORKeyStream toyPrimitives (make 19) [10, 20, 30] = .ok r1 ∧
      c.ReadStream.XORKeyStream toyPrimitives (make 5) r1.dst.data = .ok r2 ∧
      r2.dst.data.take 3 = [10, 20, 30] := by
  obtain ⟨c, hc⟩ := Res.exists_of_isOk (NewCipher "aes-128-gcm" key16) (by decide!)
  obtain ⟨r1, r2, h⟩ := aead_roundtrip toyPrimitives toyPrimitives_sealAddsTag
    toyPrimitives_openInvertsSeal "aes-128-gcm" key16 c [10, 20, 30] (make 19) (make 5)
    (by decide) hc (by decide) (by decide)
  exact ⟨c, r1, r2, hc, h⟩


/-! ## Digest lengths -/

theorem md5Round_length (m st : List Nat) (i : Nat) (h : st.length = 4) :
    (md5Round m st i).length = 4 := by
  match st, h with
  | [a, b, c, d], _ => simp [md5Round]

theorem md5_foldl_length (m : List Nat) (l : List Nat) (st : List Nat) (h : st.length = 4) :
    (l.foldl (md5Round m) st).length = 4 := by
  induction l generalizing st with
  | nil => exact h
  | cons i l ih => exact ih _ (md5Round_length m st i h)

theorem md5Block_length (h : List Nat) (block : List Byte) (hh : h.length = 4) :
    (md5Block h block).length = 4 := by
  simp [md5Block, List.length_zipWith, hh, md5_foldl_length _ _ h hh]

theorem md5_blocks_length (bs : List (List Byte)) (h : List Nat) (hh : h.length = 4) :
    (bs.foldl md5Block h).length = 4 := by
  induction bs generalizing h with
  | nil => exact hh
  | cons b bs ih => exact ih _ (md5Block_length h b hh)

/-- An MD5 digest is 16 bytes long. -/
theorem md5_Sum_length (msg : List Byte) : (md5.Sum msg).length = 16 := by
  have h := md5_blocks_length (chunks 64 (mdPad (leBytes 8) msg)) md5Init rfl
  unfold md5.Sum
  generalize (chunks 64 (mdPad (leBytes 8) msg)).foldl md5Block md5Init = st at h
  match st, h with
  | [a, b, c, d], _ => simp [leBytes]

theorem sha256Round_length (st : List Nat) (kw : Nat × Nat) (h : st.length = 8) :
    (sha256Round st kw).length = 8 := by
  match st, h with
  | [a, b, c, d, e, f, g, h'], _ => simp [sha256Round]

theorem sha256_foldl_length (l : List (Nat × Nat)) (st : List Nat) (h : st.length = 8) :
    (l.foldl sha256Round st).length = 8 := by
  induction l generalizing st with
  | nil => exact h
  | cons i l ih => exact ih _ (sha256Round_length st i h)

theorem sha256Block_length (h : List Nat) (block : List Byte) (hh : h.length = 8) :
    (sha256Block h block).length = 8 := by
  simp [sha256Block, List.length_zipWith, hh, sha256_foldl_length _ h hh]

theorem sha256_blocks_length (bs : List (List Byte)) (h : List Nat) (hh : h.length = 8) :
    (bs.foldl sha256Block h).length = 8 := by
  induction bs generalizing h with
  | nil => exact hh
  | cons b bs ih => exact ih _ (sha256Block_length h b hh)

/-- A SHA-256 digest is 32 bytes long. -/
theorem sha256_Sum256_length (msg : List Byte) : (sha256.Sum256 msg).length = 32 := by
  have h := sha256_blocks_length (chunks 64 (mdPad (beBytes 8) msg)) sha256Init rfl
  unfold sha256.Sum256
  generalize (chunks 64 (mdPad (beBytes 8) msg)).foldl sha256Block sha256Init = st at h
  match st, h with
  | [a, b, c, d, e, f, g, h'], _ => simp [beBytes]

theorem append_data (s : Slice) (xs : List Byte) : (s.append xs).1.data = s.data ++ xs := by
  unfold Slice.append
  split <;> rfl

/-! ## The constructors succeed or fail by the lengths of key and IV alone -/

theorem newRC4MD5Stream_eq (key iv : List Byte) (d : Bool) :
    newRC4MD5Stream key iv d = .ok (.lib (.rc4 (md5.Sum (key ++ iv))) []) := by
  have h := md5_Sum_length (key ++ iv)
  simp [newRC4MD5Stream, Hash.Sum, Hash.Write, Hash.checkSum, md5.New, append_data,
    rc4.NewCipher, Res.bind, h]


theorem newCFBStream_ok (block : Block) (iv : List Byte) (d : Bool)
    (h : iv.length = block.BlockSize) :
    newCFBStream block iv d =
      .ok (.lib (if d then .cfbDecrypter block iv else .cfbEncrypter block iv) []) := by
  cases d <;> simp [newCFBStream, cipher.NewCFBEncrypter, cipher.NewCFBDecrypter, Res.bind, h]

theorem newAESGCMStream_ok (key nonce : List Byte) (d : Bool)
    (hk : key.length = 16 ∨ key.length = 24 ∨ key.length = 32) (hn : nonce.length ≠ 0) :
    newAESGCMStream key nonce d = .ok (.gcm ⟨.aes key, ⟨.aes key, nonce.length⟩, nonce, [], d⟩) := by
  simp [newAESGCMStream, aes.NewCipher, hk, Res.bind, NewGCMStreamer, cipher.NewGCMWithNonceSize,
    hn, Block.BlockSize]

theorem newAESCFBStream_ok (key iv : List Byte) (d : Bool)
    (hk : key.length = 16 ∨ key.length = 24 ∨ key.length = 32) (hn : iv.length = 16) :
    newAESCFBStream key iv d =
      .ok (.lib (if d then .cfbDecrypter (.aes key) iv else .cfbEncrypter (.aes key) iv) []) := by
  simp [newAESCFBStream, aes.NewCipher, hk, Res.bind, newCFBStream_ok _ _ _ (show iv.length = (Block.aes key).BlockSize from hn)]

theorem newAESCTRStream_ok (key iv : List Byte) (d : Bool)
    (hk : key.length = 16 ∨ key.length = 24 ∨ key.length = 32) (hn : iv.length = 16) :
    newAESCTRStream key iv d = .ok (.lib (.ctr (.aes key) iv) []) := by
  simp [newAESCTRStream, aes.NewCipher, hk, Res.bind, cipher.NewCTR, Block.BlockSize, hn]

theorem newDESCFBStream_ok (key iv : List Byte) (d : Bool)
    (hk : key.length = 8) (hn : iv.length = 8) :
    newDESCFBStream key iv d =
      .ok (.lib (if d then .cfbDecrypter (.des key) iv else .cfbEncrypter (.des key) iv) []) := by
  simp [newDESCFBStream, des.NewCipher, hk, Res.bind, newCFBStream_ok _ _ _ (show iv.length = (Block.des key).BlockSize from hn)]

theorem newBlowFishStream_ok (key iv : List Byte) (d : Bool)
    (hk : 1 ≤ key.length ∧ key.length ≤ 56) (hn : iv.length = 8) :
    newBlowFishStream key iv d =
      .ok (.lib (if d then .cfbDecrypter (.blowfish key) iv else .cfbEncrypter (.blowfish key) iv) []) := by
  simp [newBlowFishStream, blowfish.NewCipher, hk, Res.bind, newCFBStream_ok _ _ _ (show iv.length = (Block.blowfish key).BlockSize from hn)]

theorem newCast5Stream_ok (key iv : List Byte) (d : Bool)
    (hk : key.length = 16) (hn : iv.length = 8) :
    newCast5Stream key iv d =
      .ok (.lib (if d then .cfbDecrypter (.cast5 key) iv else .cfbEncrypter (.cast5 key) iv) []) := by
  simp [newCast5Stream, cast5.NewCipher, hk, Res.bind, newCFBStream_ok _ _ _ (show iv.length = (Block.cast5 key).BlockSize from hn)]

theorem newChaCha20Stream_ok (key iv : List Byte) (d : Bool)
    (hk : key.length = 32) (hn : iv.length = 8 ∨ iv.length = 12) :
    newChaCha20Stream key iv d = .ok (.lib (.chacha20 key iv) []) := by
  have hn2 : iv.length = 8 ∨ iv.length = 12 ∨ iv.length = 24 := by omega
  simp [newChaCha20Stream, chacha20.NewCipher, hk, Res.bind, hn2]

theorem aes_streams_err (key iv : List Byte) (d : Bool)
    (hk : ¬ (key.length = 16 ∨ key.length = 24 ∨ key.length = 32)) :
    newAESGCMStream key iv d = .err ("crypto/aes: invalid key size " ++ toString key.length) ∧
    newAESCFBStream key iv d = .err ("crypto/aes: invalid key size " ++ toString key.length) ∧
    newAESCTRStream key iv d = .err ("crypto/aes: invalid key size " ++ toString key.length) := by
  simp [newAESGCMStream, newAESCFBStream, newAESCTRStream, aes.NewCipher, hk, Res.bind]

theorem newDESCFBStream_err (key iv : List Byte) (d : Bool) (hk : key.length ≠ 8) :
    newDESCFBStream key iv d = .err ("crypto/des: invalid key size " ++ toString key.length) := by
  simp [newDESCFBStream, des.NewCipher, hk, Res.bind]

theorem newBlowFishStream_err (key iv : List Byte) (d : Bool)
    (hk : ¬ (1 ≤ key.length ∧ key.length ≤ 56)) :
    newBlowFishStream key iv d =
      .err ("crypto/blowfish: invalid key size " ++ toString key.length) := by
  simp only [newBlowFishStream, blowfish.NewCipher, hk, Res.bind, if_false]

theorem newCast5Stream_err (key iv : List Byte) (d : Bool) (hk : key.length ≠ 16) :
    newCast5Stream key iv d = .err "CAST5: keys must be 16 bytes" := by
  simp [newCast5Stream, cast5.NewCipher, hk, Res.bind]

theorem newChaCha20Stream_err (key iv : List Byte) (d : Bool) (hk : key.length ≠ 32) :
    newChaCha20Stream key iv d = .err "key length must be KeySize bytes" := by
  simp [newChaCha20Stream, chacha20.NewCipher, hk, Res.bind]

/-- The sixteen registry entries, spelled out. -/
theorem registry_entries (method : String) (mi : cipherInfo)
    (h : cipherMethod.lookup method = some mi) :
    (method = "aes-128-gcm" ∧ mi = ⟨16, 32, newAESGCMStream⟩) ∨
    (method = "aes-192-gcm" ∧ mi = ⟨24, 32, newAESGCMStream⟩) ∨
    (method = "aes-256-gcm" ∧ mi = ⟨32, 32, newAESGCMStream⟩) ∨
    (method = "aes-128-cfb" ∧ mi = ⟨16, 16, newAESCFBStream⟩) ∨
    (method = "aes-192-cfb" ∧ mi = ⟨24, 16, newAESCFBStream⟩) ∨
    (method = "aes-256-cfb" ∧ mi = ⟨32, 16, newAESCFBStream⟩) ∨
    (method = "aes-128-ctr" ∧ mi = ⟨16, 16, newAESCTRStream⟩) ∨
    (method = "aes-192-ctr" ∧ mi = ⟨24, 16, newAESCTRStream⟩) ∨
    (method = "aes-256-ctr" ∧ mi = ⟨32, 16, newAESCTRStream⟩) ∨
    (method = "des-cfb" ∧ mi = ⟨8, 8, newDESCFBStream⟩) ∨
    (method = "bf-cfb" ∧ mi = ⟨16, 8, newBlowFishStream⟩) ∨
    (method = "cast5-cfb" ∧ mi = ⟨16, 8, newCast5Stream⟩) ∨
    (method = "rc4-md5" ∧ mi = ⟨16, 16, newRC4MD5Stream⟩) ∨
    (method = "rc4-md5-6" ∧ mi = ⟨16, 6, newRC4MD5Stream⟩) ∨
    (method = "chacha20" ∧ mi = ⟨32, 8, newChaCha20Stream⟩) ∨
    (method = "chacha20-ietf" ∧ mi = ⟨32, 12, newChaCha20Stream⟩) := by
  have h2 := registry_cases method mi h
  simpa [cipherMethod] using h2

theorem registry_ivSize_le (method : String) (mi : cipherInfo)
    (h : cipherMethod.lookup method = some mi) : 1 ≤ mi.ivSize ∧ mi.ivSize ≤ 32 := by
  rcases registry_entries method mi h with h | h | h | h | h | h | h | h | h | h | h | h | h | h | h | h <;>
    (obtain ⟨_, rfl⟩ := h; exact ⟨by decide, by decide⟩)


/-- For a registered method and a non-empty key shorter than the method's
keySize, `NewCipher` returns a session when the primitive accepts the key
length, that is for an AES-192 or AES-256 method with a key of 16 or 24 bytes
and for bf-cfb, rc4-md5 and rc4-md5-6 with any such key; in every other case
it returns an error and no session. -/
theorem NewCipher_short_key_outcome (method : String) (key : Slice) (mi : cipherInfo)
    (hk : key.len ≠ 0) (hm : cipherMethod.lookup method = some mi)
    (hshort : key.len < mi.keySize) :
    (((method ∈ ["aes-192-gcm", "aes-256-gcm", "aes-192-cfb", "aes-256-cfb", "aes-192-ctr",
          "aes-256-ctr"] ∧ (key.len = 16 ∨ key.len = 24)) ∨
        method ∈ ["bf-cfb", "rc4-md5", "rc4-md5-6"]) →
      ∃ c, NewCipher method key = .ok c) ∧
    (¬ ((method ∈ ["aes-192-gcm", "aes-256-gcm", "aes-192-cfb", "aes-256-cfb", "aes-192-ctr",
          "aes-256-ctr"] ∧ (key.len = 16 ∨ key.len = 24)) ∨
        method ∈ ["bf-cfb", "rc4-md5", "rc4-md5-6"]) →
      ∃ msg, NewCipher method key = .err msg) := by
  have hiv := (registry_ivSize_le method mi hm).2
  have hrl := derivedIV_length key mi.ivSize hiv
  have hkl := keyAfter_len key mi.ivSize
  rw [NewCipher_eq method key mi hk hm hiv]
  unfold Slice.len at hk hshort ⊢
  rcases registry_entries method mi hm with
    h | h | h | h | h | h | h | h | h | h | h | h | h | h | h | h <;>
    obtain ⟨rfl, rfl⟩ := h <;> simp only [] at hrl hkl hshort ⊢
  · have hcond : (("aes-128-gcm" ∈ ["aes-192-gcm", "aes-256-gcm", "aes-192-cfb", "aes-256-cfb", "aes-192-ctr",
          "aes-256-ctr"] ∧ (key.data.length = 16 ∨ key.data.length = 24)) ∨
        "aes-128-gcm" ∈ ["bf-cfb", "rc4-md5", "rc4-md5-6"]) ↔
        (key.data.length = 16 ∨ key.data.length = 24 ∨ key.data.length = 32) := by
      constructor
      · rintro (⟨_, h1⟩ | h2)
        · omega
        · exact absurd h2 (by decide)
      · intro h
        omega
    rw [hcond]
    by_cases hA : key.data.length = 16 ∨ key.data.length = 24 ∨ key.data.length = 32
    · have hA2 : (keyAfter key 32).data.length = 16 ∨ (keyAfter key 32).data.length = 24 ∨
          (keyAfter key 32).data.length = 32 := by rw [hkl]; exact hA
      rw [newAESGCMStream_ok _ _ _ hA (by rw [hrl]; decide), newAESGCMStream_ok _ _ _ hA2 (by rw [hrl]; decide)]
      exact ⟨fun _ => ⟨_, rfl⟩, fun hn => absurd hA hn⟩
    · rw [(aes_streams_err _ _ _ hA).1]
      exact ⟨fun hc => absurd hc hA, fun _ => ⟨_, rfl⟩⟩
  · have hcond : (("aes-192-gcm" ∈ ["aes-192-gcm", "aes-256-gcm", "aes-192-cfb", "aes-256-cfb", "aes-192-ctr",
          "aes-256-ctr"] ∧ (key.data.length = 16 ∨ key.data.length = 24)) ∨
        "aes-192-gcm" ∈ ["bf-cfb", "rc4-md5", "rc4-md5-6"]) ↔
        (key.data.length = 16 ∨ key.data.length = 24 ∨ key.data.length = 32) := by
      constructor
      · rintro (⟨_, h1⟩ | h2)
        · omega
        · exact absurd h2 (by decide)
      · intro h
        exact Or.inl ⟨by decide, by omega⟩
    rw [hcond]
    by_cases hA : key.data.length = 16 ∨ key.data.length = 24 ∨ key.data.length = 32
    · have hA2 : (keyAfter key 32).data.length = 16 ∨ (keyAfter key 32).data.length = 24 ∨
          (keyAfter key 32).data.length = 32 := by rw [hkl]; exact hA
      rw [newAESGCMStream_ok _ _ _ hA (by rw [hrl]; decide), newAESGCMStream_ok _ _ _ hA2 (by rw [hrl]; decide)]
      exact ⟨fun _ => ⟨_, rfl⟩, fun hn => absurd hA hn⟩
    · rw [(aes_streams_err _ _ _ hA).1]
      exact ⟨fun hc => absurd hc hA, fun _ => ⟨_, rfl⟩⟩
  · have hcond : (("aes-256-gcm" ∈ ["aes-192-gcm", "aes-256-gcm", "aes-192-cfb", "aes-256-cfb", "aes-192-ctr",
          "aes-256-ctr"] ∧ (key.data.length = 16 ∨ key.data.length = 24)) ∨
        "aes-256-gcm" ∈ ["bf-cfb", "rc4-md5", "rc4-md5-6"]) ↔
        (key.data.length = 16 ∨ key.data.length = 24 ∨ key.data.length = 32) := by
      constructor
      · rintro (⟨_, h1⟩ | h2)
        · omega
        · exact absurd h2 (by decide)
      · intro h
        exact Or.inl ⟨by decide, by omega⟩
    rw [hcond]
    by_cases hA : key.data.length = 16 ∨ key.data.length = 24 ∨ key.data.length = 32
    · have hA2 : (keyAfter key 32).data.length = 16 ∨ (keyAfter key 32).data.length = 24 ∨
          (keyAfter key 32).data.length = 32 := by rw [hkl]; exact hA
      rw [newAESGCMStream_ok _ _ _ hA (by rw [hrl]; decide), newAESGCMStream_ok _ _ _ hA2 (by rw [hrl]; decide)]
      exact ⟨fun _ => ⟨_, rfl⟩, fun hn => absurd hA hn⟩
    · rw [(aes_streams_err _ _ _ hA).1]
      exact ⟨fun hc => absurd hc hA, fun _ => ⟨_, rfl⟩⟩
  · have hcond : (("aes-128-cfb" ∈ ["aes-192-gcm", "aes-256-gcm", "aes-192-cfb", "aes-256-cfb", "aes-192-ctr",
          "aes-256-ctr"] ∧ (key.data.length = 16 ∨ key.data.length = 24)) ∨
        "aes-128-cfb" ∈ ["bf-cfb", "rc4-md5", "rc4-md5-6"]) ↔
        (key.data.length = 16 ∨ key.data.length = 24 ∨ key.data.length = 32) := by
      constructor
      · rintro (⟨_, h1⟩ | h2)
        · omega
        · exact absurd h2 (by decide)
      · intro h
        omega
    rw [hcond]
    by_cases hA : key.data.length = 16 ∨ key.data.length = 24 ∨ key.data.length = 32
    · have hA2 : (keyAfter key 16).data.length = 16 ∨ (keyAfter key 16).data.length = 24 ∨
          (keyAfter key 16).data.length = 32 := by rw [hkl]; exact hA
      rw [newAESCFBStream_ok _ _ _ hA hrl, newAESCFBStream_ok _ _ _ hA2 hrl]
      exact ⟨fun _ => ⟨_, rfl⟩, fun hn => absurd hA hn⟩
    · rw [(aes_streams_err _ _ _ hA).2.1]
      exact ⟨fun hc => absurd hc hA, fun _ => ⟨_, rfl⟩⟩
  · have hcond : (("aes-192-cfb" ∈ ["aes-192-gcm", "aes-256-gcm", "aes-192-cfb", "aes-256-cfb", "aes-192-ctr",
          "aes-256-ctr"] ∧ (key.data.length = 16 ∨ key.data.length = 24)) ∨
        "aes-192-cfb" ∈ ["bf-cfb", "rc4-md5", "rc4-md5-6"]) ↔
        (key.data.length = 16 ∨ key.data.length = 24 ∨ key.data.length = 32) := by
      constructor
      · rintro (⟨_, h1⟩ | h2)
        · omega
        · exact absurd h2 (by decide)
      · intro h
        exact Or.inl ⟨by decide, by omega⟩
    rw [hcond]
    by_cases hA : key.data.length = 16 ∨ key.data.length = 24 ∨ key.data.length = 32
    · have hA2 : (keyAfter key 16).data.length = 16 ∨ (keyAfter key 16).data.length = 24 ∨
          (keyAfter key 16).data.length = 32 := by rw [hkl]; exact hA
      rw [newAESCFBStream_ok _ _ _ hA hrl, newAESCFBStream_ok _ _ _ hA2 hrl]
      exact ⟨fun _ => ⟨_, rfl⟩, fun hn => absurd hA hn⟩
    · rw [(aes_streams_err _ _ _ hA).2.1]
      exact ⟨fun hc => absurd hc hA, fun _ => ⟨_, rfl⟩⟩
  · have hcond : (("aes-256-cfb" ∈ ["aes-192-gcm", "aes-256-gcm", "aes-192-cfb", "aes-256-cfb", "aes-192-ctr",
          "aes-256-ctr"] ∧ (key.data.length = 16 ∨ key.data.length = 24)) ∨
        "aes-256-cfb" ∈ ["bf-cfb", "rc4-md5", "rc4-md5-6"]) ↔
        (key.data.length = 16 ∨ key.data.length = 24 ∨ key.data.length = 32) := by
      constructor
      · rintro (⟨_, h1⟩ | h2)
        · omega
        · exact absurd h2 (by decide)
      · intro h
        exact Or.inl ⟨by decide, by omega⟩
    rw [hcond]
    by_cases hA : key.data.length = 16 ∨ key.data.length = 24 ∨ key.data.length = 32
    · have hA2 : (keyAfter key 16).data.length = 16 ∨ (keyAfter key 16).data.length = 24 ∨
          (keyAfter key 16).data.length = 32 := by rw [hkl]; exact hA
      rw [newAESCFBStream_ok _ _ _ hA hrl, newAESCFBStream_ok _ _ _ hA2 hrl]
      exact ⟨fun _ => ⟨_, rfl⟩, fun hn => absurd hA hn⟩
    · rw [(aes_streams_err _ _ _ hA).2.1]
      exact ⟨fun hc => absurd hc hA, fun _ => ⟨_, rfl⟩⟩
  · have hcond : (("aes-128-ctr" ∈ ["aes-192-gcm", "aes-256-gcm", "aes-192-cfb", "aes-256-cfb", "aes-192-ctr",
          "aes-256-ctr"] ∧ (key.data.length = 16 ∨ key.data.length = 24)) ∨
        "aes-128-ctr" ∈ ["bf-cfb", "rc4-md5", "rc4-md5-6"]) ↔
        (key.data.length = 16 ∨ key.data.length = 24 ∨ key.data.length = 32) := by
      constructor
      · rintro (⟨_, h1⟩ | h2)
        · omega
        · exact absurd h2 (by decide)
      · intro h
        omega
    rw [hcond]
    by_cases hA : key.data.length = 16 ∨ key.data.length = 24 ∨ key.data.length = 32
    · have hA2 : (keyAfter key 16).data.length = 16 ∨ (keyAfter key 16).data.length = 24 ∨
          (keyAfter key 16).data.length = 32 := by rw [hkl]; exact hA
      rw [newAESCTRStream_ok _ _ _ hA hrl, newAESCTRStream_ok _ _ _ hA2 hrl]
      exact ⟨fun _ => ⟨_, rfl⟩, fun hn => absurd hA hn⟩
    · rw [(aes_streams_err _ _ _ hA).2.2]
      exact ⟨fun hc => absurd hc hA, fun _ => ⟨_, rfl⟩⟩
  · have hcond : (("aes-192-ctr" ∈ ["aes-192-gcm", "aes-256-gcm", "aes-192-cfb", "aes-256-cfb", "aes-192-ctr",
          "aes-256-ctr"] ∧ (key.data.length = 16 ∨ key.data.length = 24)) ∨
        "aes-192-ctr" ∈ ["bf-cfb", "rc4-md5", "rc4-md5-6"]) ↔
        (key.data.length = 16 ∨ key.data.length = 24 ∨ key.data.length = 32) := by
      constructor
      · rintro (⟨_, h1⟩ | h2)
        · omega
        · exact absurd h2 (by decide)
      · intro h
        exact Or.inl ⟨by decide, by omega⟩
    rw [hcond]
    by_cases hA : key.data.length = 16 ∨ key.data.length = 24 ∨ key.data.length = 32
    · have hA2 : (keyAfter key 16).data.length = 16 ∨ (keyAfter key 16).data.length = 24 ∨
          (keyAfter key 16).data.length = 32 := by rw [hkl]; exact hA
      rw [newAESCTRStream_ok _ _ _ hA hrl, newAESCTRStream_ok _ _ _ hA2 hrl]
      exact ⟨fun _ => ⟨_, rfl⟩, fun hn => absurd hA hn⟩
    · rw [(aes_streams_err _ _ _ hA).2.2]
      exact ⟨fun hc => absurd hc hA, fun _ => ⟨_, rfl⟩⟩
  · have hcond : (("aes-256-ctr" ∈ ["aes-192-gcm", "aes-256-gcm", "aes-192-cfb", "aes-256-cfb", "aes-192-ctr",
          "aes-256-ctr"] ∧ (key.data.length = 16 ∨ key.data.length = 24)) ∨
        "aes-256-ctr" ∈ ["bf-cfb", "rc4-md5", "rc4-md5-6"]) ↔
        (key.data.length = 16 ∨ key.data.length = 24 ∨ key.data.length = 32) := by
      constructor
      · rintro (⟨_, h1⟩ | h2)
        · omega
        · exact absurd h2 (by decide)
      · intro h
        exact Or.inl ⟨by decide, by omega⟩
    rw [hcond]
    by_cases hA : key.data.length = 16 ∨ key.data.length = 24 ∨ key.data.length = 32
    · have hA2 : (keyAfter key 16).data.length = 16 ∨ (keyAfter key 16).data.length = 24 ∨
          (keyAfter key 16).data.length = 32 := by rw [hkl]; exact hA
      rw [newAESCTRStream_ok _ _ _ hA hrl, newAESCTRStream_ok _ _ _ hA2 hrl]
      exact ⟨fun _ => ⟨_, rfl⟩, fun hn => absurd hA hn⟩
    · rw [(aes_streams_err _ _ _ hA).2.2]
      exact ⟨fun hc => absurd hc hA, fun _ => ⟨_, rfl⟩⟩
  · have hcond : ¬ (("des-cfb" ∈ ["aes-192-gcm", "aes-256-gcm", "aes-192-cfb", "aes-256-cfb", "aes-192-ctr",
          "aes-256-ctr"] ∧ (key.data.length = 16 ∨ key.data.length = 24)) ∨
        "des-cfb" ∈ ["bf-cfb", "rc4-md5", "rc4-md5-6"]) := by
      rintro (⟨hm1, _⟩ | h2)
      · exact absurd hm1 (by decide)
      · exact absurd h2 (by decide)
    rw [newDESCFBStream_err _ _ _ (by omega)]
    exact ⟨fun hc => absurd hc hcond, fun _ => ⟨_, rfl⟩⟩
  · have hcond : (("bf-cfb" ∈ ["aes-192-gcm", "aes-256-gcm", "aes-192-cfb", "aes-256-cfb", "aes-192-ctr",
          "aes-256-ctr"] ∧ (key.data.length = 16 ∨ key.data.length = 24)) ∨
        "bf-cfb" ∈ ["bf-cfb", "rc4-md5", "rc4-md5-6"]) := Or.inr (by decide)
    rw [newBlowFishStream_ok _ _ _ (by omega) hrl, newBlowFishStream_ok _ _ _ (by omega) hrl]
    exact ⟨fun _ => ⟨_, rfl⟩, fun hn => absurd hcond hn⟩
  · have hcond : ¬ (("cast5-cfb" ∈ ["aes-192-gcm", "aes-256-gcm", "aes-192-cfb", "aes-256-cfb", "aes-192-ctr",
          "aes-256-ctr"] ∧ (key.data.length = 16 ∨ key.data.length = 24)) ∨
        "cast5-cfb" ∈ ["bf-cfb", "rc4-md5", "rc4-md5-6"]) := by
      rintro (⟨hm1, _⟩ | h2)
      · exact absurd hm1 (by decide)
      · exact absurd h2 (by decide)
    rw [newCast5Stream_err _ _ _ (by omega)]
    exact ⟨fun hc => absurd hc hcond, fun _ => ⟨_, rfl⟩⟩
  · have hcond : (("rc4-md5" ∈ ["aes-192-gcm", "aes-256-gcm", "aes-192-cfb", "aes-256-cfb", "aes-192-ctr",
          "aes-256-ctr"] ∧ (key.data.length = 16 ∨ key.data.length = 24)) ∨
        "rc4-md5" ∈ ["bf-cfb", "rc4-md5", "rc4-md5-6"]) := Or.inr (by decide)
    rw [newRC4MD5Stream_eq, newRC4MD5Stream_eq]
    exact ⟨fun _ => ⟨_, rfl⟩, fun hn => absurd hcond hn⟩
  · have hcond : (("rc4-md5-6" ∈ ["aes-192-gcm", "aes-256-gcm", "aes-192-cfb", "aes-256-cfb", "aes-192-ctr",
          "aes-256-ctr"] ∧ (key.data.length = 16 ∨ key.data.length = 24)) ∨
        "rc4-md5-6" ∈ ["bf-cfb", "rc4-md5", "rc4-md5-6"]) := Or.inr (by decide)
    rw [newRC4MD5Stream_eq, newRC4MD5Stream_eq]
    exact ⟨fun _ => ⟨_, rfl⟩, fun hn => absurd hcond hn⟩
  · have hcond : ¬ (("chacha20" ∈ ["aes-192-gcm", "aes-256-gcm", "aes-192-cfb", "aes-256-cfb", "aes-192-ctr",
          "aes-256-ctr"] ∧ (key.data.length = 16 ∨ key.data.length = 24)) ∨
        "chacha20" ∈ ["bf-cfb", "rc4-md5", "rc4-md5-6"]) := by
      rintro (⟨hm1, _⟩ | h2)
      · exact absurd hm1 (by decide)
      · exact absurd h2 (by decide)
    rw [newChaCha20Stream_err _ _ _ (by omega)]
    exact ⟨fun hc => absurd hc hcond, fun _ => ⟨_, rfl⟩⟩
  · have hcond : ¬ (("chacha20-ietf" ∈ ["aes-192-gcm", "aes-256-gcm", "aes-192-cfb", "aes-256-cfb", "aes-192-ctr",
          "aes-256-ctr"] ∧ (key.data.length = 16 ∨ key.data.length = 24)) ∨
        "chacha20-ietf" ∈ ["bf-cfb", "rc4-md5", "rc4-md5-6"]) := by
      rintro (⟨hm1, _⟩ | h2)
      · exact absurd hm1 (by decide)
      · exact absurd h2 (by decide)
    rw [newChaCha20Stream_err _ _ _ (by omega)]
    exact ⟨fun hc => absurd hc hcond, fun _ => ⟨_, rfl⟩⟩

/-! ## Sessions of the classical family -/

/-- A session is returned exactly from two successful constructor calls. -/
theorem NewCipher_ok_parts (method : String) (key : Slice) (mi : cipherInfo) (c : Cipher)
    (hm : cipherMethod.lookup method = some mi) (hc : NewCipher method key = .ok c) :
    mi.stream key.data (derivedIV key mi.ivSize) true = .ok c.ReadStream ∧
    mi.stream (keyAfter key mi.ivSize).data (derivedIV key mi.ivSize) false = .ok c.WriteStream ∧
    c.key = keyAfter key mi.ivSize := by
  have hk := NewCipher_ok_key_ne method key c hc
  rw [NewCipher_eq method key mi hk hm (registry_ivSize_le method mi hm).2] at hc
  cases h1 : mi.stream key.data (derivedIV key mi.ivSize) true with
  | err m => simp [h1, Res.bind] at hc
  | panic m => simp [h1, Res.bind] at hc
  | ok rs =>
    cases h2 : mi.stream (keyAfter key mi.ivSize).data (derivedIV key mi.ivSize) false with
    | err m => simp [h1, h2, Res.bind] at hc
    | panic m => simp [h1, h2, Res.bind] at hc
    | ok ws =>
      simp only [h1, h2, Res.bind, Res.ok.injEq] at hc
      subst hc
      exact ⟨rfl, rfl, rfl⟩

/-- One call on a fresh library stream, into a destination of the source's
length, yields the primitive's output for that source. -/
theorem transform_lib (P : Primitives) (hLen : P.KeepsLength) (o : Origin) (p : List Byte) :
    Stream.transform P (.lib o []) p = .ok (P.keyStreamXOR o p) := by
  have h : (make p.length).len = (P.keyStreamXOR o p).length := by
    rw [hLen]; simp [make, Slice.len]
  have h2 : ¬ ((make p.length).len < p.length) := by simp [make, Slice.len]
  simp [Stream.transform, Stream.XORKeyStream, h2, Res.bind, copy_exact _ _ h]

/-- In a session of the classical family whose key bytes `NewCipher` left as
they were passed, the two streams are fresh library streams built from the
same key and the same IV, and the read stream undoes the write stream. -/
theorem classical_streams (P : Primitives) (hInv : P.StreamsInvert)
    (method : String) (key : Slice) (c : Cipher)
    (hm : method ∈ classicalMethods) (hc : NewCipher method key = .ok c)
    (hkey : c.key.data = key.data) :
    ∃ r w, c.ReadStream = .lib r [] ∧ c.WriteStream = .lib w [] ∧
      ∀ p, P.keyStreamXOR r (P.keyStreamXOR w p) = p := by
  obtain ⟨hcfb, hctr, hrc4, hcha⟩ := hInv
  have hk := NewCipher_ok_key_ne method key c hc
  cases hl : cipherMethod.lookup method with
  | none => simp [NewCipher, hk, hl] at hc
  | some mi =>
    obtain ⟨h1, h2, h3⟩ := NewCipher_ok_parts method key mi c hl hc
    have hrl := derivedIV_length key mi.ivSize (registry_ivSize_le method mi hl).2
    rw [← h3, hkey] at h2
    rcases registry_entries method mi hl with
      h | h | h | h | h | h | h | h | h | h | h | h | h | h | h | h <;>
      obtain ⟨rfl, rfl⟩ := h <;> simp only [] at h1 h2 hrl
    · exact absurd hm (by decide)
    · exact absurd hm (by decide)
    · exact absurd hm (by decide)
    · by_cases hA : key.data.length = 16 ∨ key.data.length = 24 ∨ key.data.length = 32
      · rw [newAESCFBStream_ok _ _ _ hA hrl] at h1 h2
        simp only [Res.ok.injEq] at h1 h2
        exact ⟨_, _, h1.symm, h2.symm, fun p => hcfb _ _ p⟩
      · rw [(aes_streams_err _ _ _ hA).2.1] at h1
        cases h1
    · by_cases hA : key.data.length = 16 ∨ key.data.length = 24 ∨ key.data.length = 32
      · rw [newAESCFBStream_ok _ _ _ hA hrl] at h1 h2
        simp only [Res.ok.injEq] at h1 h2
        exact ⟨_, _, h1.symm, h2.symm, fun p => hcfb _ _ p⟩
      · rw [(aes_streams_err _ _ _ hA).2.1] at h1
        cases h1
    · by_cases hA : key.data.length = 16 ∨ key.data.length = 24 ∨ key.data.length = 32
      · rw [newAESCFBStream_ok _ _ _ hA hrl] at h1 h2
        simp only [Res.ok.injEq] at h1 h2
        exact ⟨_, _, h1.symm, h2.symm, fun p => hcfb _ _ p⟩
      · rw [(aes_streams_err _ _ _ hA).2.1] at h1
        cases h1
    · by_cases hA : key.data.length = 16 ∨ key.data.length = 24 ∨ key.data.length = 32
      · rw [newAESCTRStream_ok _ _ _ hA hrl] at h1 h2
        simp only [Res.ok.injEq] at h1 h2
        exact ⟨_, _, h1.symm, h2.symm, fun p => hctr _ _ p⟩
      · rw [(aes_streams_err _ _ _ hA).2.2] at h1
        cases h1
    · by_cases hA : key.data.length = 16 ∨ key.data.length = 24 ∨ key.data.length = 32
      · rw [newAESCTRStream_ok _ _ _ hA hrl] at h1 h2
        simp only [Res.ok.injEq] at h1 h2
        exact ⟨_, _, h1.symm, h2.symm, fun p => hctr _ _ p⟩
      · rw [(aes_streams_err _ _ _ hA).2.2] at h1
        cases h1
    · by_cases hA : key.data.length = 16 ∨ key.data.length = 24 ∨ key.data.length = 32
      · rw [newAESCTRStream_ok _ _ _ hA hrl] at h1 h2
        simp only [Res.ok.injEq] at h1 h2
        exact ⟨_, _, h1.symm, h2.symm, fun p => hctr _ _ p⟩
      · rw [(aes_streams_err _ _ _ hA).2.2] at h1
        cases h1
    · by_cases hA : key.data.length = 8
      · rw [newDESCFBStream_ok _ _ _ hA hrl] at h1 h2
        simp only [Res.ok.injEq] at h1 h2
        exact ⟨_, _, h1.symm, h2.symm, fun p => hcfb _ _ p⟩
      · rw [newDESCFBStream_err _ _ _ hA] at h1
        cases h1
    · by_cases hA : 1 ≤ key.data.length ∧ key.data.length ≤ 56
      · rw [newBlowFishStream_ok _ _ _ hA hrl] at h1 h2
        simp only [Res.ok.injEq] at h1 h2
        exact ⟨_, _, h1.symm, h2.symm, fun p => hcfb _ _ p⟩
      · rw [newBlowFishStream_err _ _ _ hA] at h1
        cases h1
    · by_cases hA : key.data.length = 16
      · rw [newCast5Stream_ok _ _ _ hA hrl] at h1 h2
        simp only [Res.ok.injEq] at h1 h2
        exact ⟨_, _, h1.symm, h2.symm, fun p => hcfb _ _ p⟩
      · rw [newCast5Stream_err _ _ _ hA] at h1
        cases h1
    · rw [newRC4MD5Stream_eq] at h1 h2
      simp only [Res.ok.injEq] at h1 h2
      exact ⟨_, _, h1.symm, h2.symm, fun p => hrc4 _ p⟩
    · rw [newRC4MD5Stream_eq] at h1 h2
      simp only [Res.ok.injEq] at h1 h2
      exact ⟨_, _, h1.symm, h2.symm, fun p => hrc4 _ p⟩
    · by_cases hA : key.data.length = 32
      · rw [newChaCha20Stream_ok _ _ _ hA (Or.inl hrl)] at h1 h2
        simp only [Res.ok.injEq] at h1 h2
        exact ⟨_, _, h1.symm, h2.symm, fun p => hcha _ _ p⟩
      · rw [newChaCha20Stream_err _ _ _ hA] at h1
        cases h1
    · by_cases hA : key.data.length = 32
      · rw [newChaCha20Stream_ok _ _ _ hA (Or.inr hrl)] at h1 h2
        simp only [Res.ok.injEq] at h1 h2
        exact ⟨_, _, h1.symm, h2.symm, fun p => hcha _ _ p⟩
      · rw [newChaCha20Stream_err _ _ _ hA] at h1
        cases h1

/-- The round trip of the classical family, for sessions whose key bytes
`NewCipher` left as they were passed: encrypting `p` with the WriteStream and
decrypting the result with the ReadStream returns `p`. -/
theorem classical_roundtrip_of_intact_key (P : Primitives) (hLen : P.KeepsLength)
    (hInv : P.StreamsInvert) (method : String) (key : Slice) (c : Cipher) (p : List Byte)
    (hm : method ∈ classicalMethods) (hc : NewCipher method key = .ok c)
    (hkey : c.key.data = key.data) :
    ∃ q, c.WriteStream.transform P p = .ok q ∧ c.ReadStream.transform P q = .ok p := by
  obtain ⟨r, w, hr, hw, hrw⟩ := classical_streams P hInv method key c hm hc hkey
  refine ⟨P.keyStreamXOR w p, ?_, ?_⟩
  · rw [hw, transform_lib P hLen]
  · rw [hr, transform_lib P hLen, hrw]

/-- The key bytes are left as passed whenever the key slice has fewer than 32
spare bytes of capacity, or is no longer than the IV. -/
theorem NewCipher_key_intact (method : String) (key : Slice) (mi : cipherInfo) (c : Cipher)
    (hm : cipherMethod.lookup method = some mi) (hc : NewCipher method key = .ok c)
    (h : key.tail.length < 32 ∨ key.len ≤ mi.ivSize) : c.key.data = key.data := by
  rw [(NewCipher_ok_parts method key mi c hm hc).2.2]
  rcases h with h | h
  · rw [keyAfter_of_small_tail key _ h]
  · exact keyAfter_data_of_len_le key _ h

/-! ## The GCM adapter: buffer check and fixed nonce -/

/-- C11: a GCM adapter call panics, with the message "crypto/cipher: output
not enough for input", exactly when the destination capacity is below the
required output size: for a decryption adapter iff `cap(dst) < len(src) - 16`
in signed integers, which never happens when `len(src) <= 16`, and for an
encryption adapter iff `cap(dst) < len(src) + 16`. In every other case the
call returns normally. -/
theorem gcm_panics_iff_capacity_short (P : Primitives) (x : gcm) (dst : Slice)
    (src : List Byte) :
    ((∃ msg, x.XORKeyStream P dst src = .panic msg) ↔
      ((x.decrypt = true ∧ (dst.cap : Int) < (src.length : Int) - 16) ∨
       (x.decrypt = false ∧ dst.cap < src.length + 16))) ∧
    (x.XORKeyStream P dst src = .panic "crypto/cipher: output not enough for input" ↔
      ((x.decrypt = true ∧ (dst.cap : Int) < (src.length : Int) - 16) ∨
       (x.decrypt = false ∧ dst.cap < src.length + 16))) ∧
    ((x.decrypt = true ∧ src.length ≤ 16) → ∃ r, x.XORKeyStream P dst src = .ok r) ∧
    (∀ msg, x.XORKeyStream P dst src ≠ .err msg) := by
  cases hd : x.decrypt
  · by_cases hc : dst.cap < src.length + 16
    · simp [gcm.XORKeyStream, hd, hc]
    · simp [gcm.XORKeyStream, hd, hc]
  · by_cases hc : (dst.cap : Int) < (src.length : Int) - 16
    · have h16 : ¬ src.length ≤ 16 := by omega
      simp [gcm.XORKeyStream, hd, hc, h16]
    · cases ho : P.Open x.aead x.nonce src <;> simp [gcm.XORKeyStream, hd, hc, ho]

/-- A decryption adapter with an empty destination: a 2-byte source passes the
check, a 17-byte source does not. -/
theorem gcm_panics_iff_capacity_short_witness :
    (∃ r, gcm.XORKeyStream toyPrimitives
        ⟨.aes key16.data, ⟨.aes key16.data, 32⟩, List.replicate 32 0, [], true⟩ (make 0) [1, 2] =
      .ok r) ∧
    gcm.XORKeyStream toyPrimitives
        ⟨.aes key16.data, ⟨.aes key16.data, 32⟩, List.replicate 32 0, [], true⟩ (make 0)
        (List.replicate 17 0) = .panic "crypto/cipher: output not enough for input" :=
  ⟨(gcm_panics_iff_capacity_short toyPrimitives
      ⟨.aes key16.data, ⟨.aes key16.data, 32⟩, List.replicate 32 0, [], true⟩ (make 0)
      [1, 2]).2.2.1 ⟨rfl, by decide⟩,
   (gcm_panics_iff_capacity_short toyPrimitives
      ⟨.aes key16.data, ⟨.aes key16.data, 32⟩, List.replicate 32 0, [], true⟩ (make 0)
      (List.replicate 17 0)).2.1.mpr (Or.inl ⟨rfl, by decide⟩)⟩

/-- One call changes no field of the adapter other than `out`. -/
theorem gcm_call_keeps_fields (P : Primitives) (x : gcm) (dst : Slice) (src : List Byte)
    (r : Call gcm) (h : x.XORKeyStream P dst src = .ok r) :
    r.recv.block = x.block ∧ r.recv.aead = x.aead ∧ r.recv.nonce = x.nonce ∧
      r.recv.decrypt = x.decrypt := by
  unfold gcm.XORKeyStream at h
  split at h
  · split at h
    · cases h
    · split at h <;> (simp only [Res.ok.injEq] at h; subst h; exact ⟨rfl, rfl, rfl, rfl⟩)
  · split at h
    · cases h
    · simp only [Res.ok.injEq] at h
      subst h
      exact ⟨rfl, rfl, rfl, rfl⟩

/-- No sequence of calls changes a field of the adapter other than `out`. -/
theorem gcm_afterCalls_keeps_fields (P : Primitives) (calls : List (Slice × List Byte))
    (x : gcm) :
    (x.afterCalls P calls).block = x.block ∧ (x.afterCalls P calls).aead = x.aead ∧
      (x.afterCalls P calls).nonce = x.nonce ∧ (x.afterCalls P calls).decrypt = x.decrypt := by
  induction calls generalizing x with
  | nil => exact ⟨rfl, rfl, rfl, rfl⟩
  | cons call rest ih =>
    obtain ⟨dst, src⟩ := call
    unfold gcm.afterCalls
    cases h : x.XORKeyStream P dst src with
    | ok r =>
      obtain ⟨h1, h2, h3, h4⟩ := gcm_call_keeps_fields P x dst src r h
      obtain ⟨i1, i2, i3, i4⟩ := ih r.recv
      exact ⟨i1.trans h1, i2.trans h2, i3.trans h3, i4.trans h4⟩
    | err m => exact ih x
    | panic m => exact ih x

/-- C12: when `NewGCMStreamer` returns a stream, it is a GCM adapter whose AEAD
was built over the given block with a nonce size equal to the length of the
supplied IV, whose nonce is the entire supplied IV and whose flag is the one
given; and after any sequence of `XORKeyStream` calls, whether they succeed,
fail authentication or panic, the nonce is still the supplied IV and the flag,
the block and the AEAD are unchanged. -/
theorem NewGCMStreamer_fixed_nonce (P : Primitives) (block : Block) (nonce : List Byte)
    (decrypt : Bool) (s : Stream) (h : NewGCMStreamer block nonce decrypt = .ok s) :
    ∃ x, s = .gcm x ∧ x.aead = ⟨block, nonce.length⟩ ∧ x.aead.NonceSize = nonce.length ∧
      x.nonce = nonce ∧ x.decrypt = decrypt ∧ x.block = block ∧
      ∀ calls : List (Slice × List Byte),
        (x.afterCalls P calls).nonce = nonce ∧ (x.afterCalls P calls).decrypt = decrypt ∧
        (x.afterCalls P calls).aead = ⟨block, nonce.length⟩ ∧
        (x.afterCalls P calls).block = block := by
  unfold NewGCMStreamer cipher.NewGCMWithNonceSize at h
  split at h
  · simp [Res.bind] at h
  · split at h
    · simp [Res.bind] at h
    · simp only [Res.bind, Res.ok.injEq] at h
      subst h
      refine ⟨_, rfl, rfl, rfl, rfl, rfl, rfl, ?_⟩
      intro calls
      obtain ⟨h1, h2, h3, h4⟩ := gcm_afterCalls_keeps_fields P calls
        ⟨block, ⟨block, nonce.length⟩, nonce, [], decrypt⟩
      exact ⟨h3, h4, h2, h1⟩

/-- A decryption adapter over AES with a 12-byte IV; the calls are one that
fails authentication, one that panics and one that opens a sealed message. -/
theorem NewGCMStreamer_fixed_nonce_witness :
    ∃ x, NewGCMStreamer (.aes key16.data) (List.replicate 12 9) true = .ok (.gcm x) ∧
      x.aead.NonceSize = 12 ∧ x.nonce = List.replicate 12 9 ∧
      (x.afterCalls toyPrimitives
        [(make 4, [1, 2, 3]), (make 0, List.replicate 40 0),
         (make 4, toyPrimitives.Seal x.aead x.nonce [5, 6])]).nonce = List.replicate 12 9 := by
  obtain ⟨x, hx, _, h2, h3, _, _, h6⟩ := NewGCMStreamer_fixed_nonce toyPrimitives
    (.aes key16.data) (List.replicate 12 9) true
    (.gcm ⟨.aes key16.data, ⟨.aes key16.data, 12⟩, List.replicate 12 9, [], true⟩) (by decide)
  exact ⟨x, by rw [← hx]; decide, h2, h3, (h6 _).1⟩

/-! ## The constructors and the decrypt flag -/

/-- When `newCFBStream` returns a stream for `false` it is the encrypter, and
for `true` it returns the decrypter over the same block and IV. -/
theorem newCFBStream_flag (block : Block) (iv : List Byte) (s : Stream)
    (h : newCFBStream block iv false = .ok s) :
    s = .lib (.cfbEncrypter block iv) [] ∧
    newCFBStream block iv true = .ok (.lib (.cfbDecrypter block iv) []) := by
  by_cases hiv : iv.length = block.BlockSize
  · rw [newCFBStream_ok block iv false hiv] at h
    simp only [Res.ok.injEq] at h
    exact ⟨by rw [← h]; rfl, newCFBStream_ok block iv true hiv⟩
  · simp [newCFBStream, cipher.NewCFBEncrypter, hiv, Res.bind] at h

/-- C14: among the constructors of the classical family, those for CTR,
RC4-MD5 and ChaCha20 ignore the decrypt flag: for every key and IV they return
the same result, the same stream or the same error, for `true` and for `false`.
The CFB constructors select by the flag: whenever `newCFBStream` gets an IV of
one block it returns the CFB encrypter for `false` and the CFB decrypter for
`true`, and each of the AES, DES, Blowfish and CAST5 CFB constructors that
returns a stream for `false` returns the encrypter there and the decrypter
over the same block and IV for `true`. -/
theorem decrypt_flag_matters_only_for_cfb (key iv : List Byte) :
    newAESCTRStream key iv true = newAESCTRStream key iv false ∧
    newRC4MD5Stream key iv true = newRC4MD5Stream key iv false ∧
    newChaCha20Stream key iv true = newChaCha20Stream key iv false ∧
    (∀ block : Block, iv.length = block.BlockSize →
      newCFBStream block iv false = .ok (.lib (.cfbEncrypter block iv) []) ∧
      newCFBStream block iv true = .ok (.lib (.cfbDecrypter block iv) [])) ∧
    (∀ s, newAESCFBStream key iv false = .ok s →
      s = .lib (.cfbEncrypter (.aes key) iv) [] ∧
      newAESCFBStream key iv true = .ok (.lib (.cfbDecrypter (.aes key) iv) [])) ∧
    (∀ s, newDESCFBStream key iv false = .ok s →
      s = .lib (.cfbEncrypter (.des key) iv) [] ∧
      newDESCFBStream key iv true = .ok (.lib (.cfbDecrypter (.des key) iv) [])) ∧
    (∀ s, newBlowFishStream key iv false = .ok s →
      s = .lib (.cfbEncrypter (.blowfish key) iv) [] ∧
      newBlowFishStream key iv true = .ok (.lib (.cfbDecrypter (.blowfish key) iv) [])) ∧
    (∀ s, newCast5Stream key iv false = .ok s →
      s = .lib (.cfbEncrypter (.cast5 key) iv) [] ∧
      newCast5Stream key iv true = .ok (.lib (.cfbDecrypter (.cast5 key) iv) [])) := by
  refine ⟨rfl, rfl, rfl, ?_, ?_, ?_, ?_, ?_⟩
  · intro block h
    exact ⟨newCFBStream_ok block iv false h, newCFBStream_ok block iv true h⟩
  · intro s h
    by_cases hk : key.length = 16 ∨ key.length = 24 ∨ key.length = 32
    · simp only [newAESCFBStream, aes.NewCipher, hk, if_true, Res.bind] at h ⊢
      exact newCFBStream_flag _ iv s h
    · simp only [newAESCFBStream, aes.NewCipher, hk, if_false, Res.bind] at h
      cases h
  · intro s h
    by_cases hk : key.length = 8
    · simp only [newDESCFBStream, des.NewCipher, hk, if_true, Res.bind] at h ⊢
      exact newCFBStream_flag _ iv s h
    · simp only [newDESCFBStream, des.NewCipher, hk, if_false, Res.bind] at h
      cases h
  · intro s h
    by_cases hk : 1 ≤ key.length ∧ key.length ≤ 56
    · simp only [newBlowFishStream, blowfish.NewCipher, hk, if_true, Res.bind] at h ⊢
      exact newCFBStream_flag _ iv s h
    · simp only [newBlowFishStream, blowfish.NewCipher, hk, if_false, Res.bind] at h
      cases h
  · intro s h
    by_cases hk : key.length = 16
    · simp only [newCast5Stream, cast5.NewCipher, hk, if_true, Res.bind] at h ⊢
      exact newCFBStream_flag _ iv s h
    · simp only [newCast5Stream, cast5.NewCipher, hk, if_false, Res.bind] at h
      cases h

/-- The AES CFB constructor on the key 1, ..., 16 and a 16-byte IV: encrypter
for `false`, decrypter for `true`. -/
theorem decrypt_flag_matters_only_for_cfb_witness :
    newAESCFBStream key16.data (List.replicate 16 3) false =
      .ok (.lib (.cfbEncrypter (.aes key16.data) (List.replicate 16 3)) []) ∧
    newAESCFBStream key16.data (List.replicate 16 3) true =
      .ok (.lib (.cfbDecrypter (.aes key16.data) (List.replicate 16 3)) []) ∧
    newCFBStream (.des (List.replicate 8 1)) (List.replicate 8 2) true =
      .ok (.lib (.cfbDecrypter (.des (List.replicate 8 1)) (List.replicate 8 2)) []) :=
  ⟨by decide,
   ((decrypt_flag_matters_only_for_cfb key16.data (List.replicate 16 3)).2.2.2.2.1
      (.lib (.cfbEncrypter (.aes key16.data) (List.replicate 16 3)) []) (by decide)).2,
   ((decrypt_flag_matters_only_for_cfb (List.replicate 8 1) (List.replicate 8 2)).2.2.2.1
      (.des (List.replicate 8 1)) (by decide)).2⟩

/-- The MD5 digest of the empty input, d41d8cd9 8f00b204 e9800998 ecf8427e. -/
theorem md5_Sum_empty :
    md5.Sum [] = [0xd4, 0x1d, 0x8c, 0xd9, 0x8f, 0x00, 0xb2, 0x04, 0xe9, 0x80, 0x09, 0x98, 0xec,
      0xf8, 0x42, 0x7e] := by decide!

/-- C16: for every key and IV (and either flag) the RC4-MD5 constructor returns
an RC4 stream keyed with the MD5 digest of the key bytes followed by the IV
bytes; that digest has 16 bytes, `rc4.NewCipher` accepts every 16-byte key, and
so the constructors registered for rc4-md5 and rc4-md5-6 never fail. -/
theorem newRC4MD5Stream_keys_rc4_with_md5 (key iv : List Byte) (d : Bool) :
    newRC4MD5Stream key iv d = .ok (.lib (.rc4 (md5.Sum (key ++ iv))) []) ∧
    (md5.Sum (key ++ iv)).length = 16 ∧
    (md5.New.Write key).Write iv = ⟨.md5, key ++ iv⟩ ∧
    rc4.NewCipher (md5.Sum (key ++ iv)) = .ok (.rc4 (md5.Sum (key ++ iv))) ∧
    (cipherMethod.lookup "rc4-md5").map (fun mi => mi.stream key iv d) =
      some (.ok (.lib (.rc4 (md5.Sum (key ++ iv))) [])) ∧
    (cipherMethod.lookup "rc4-md5-6").map (fun mi => mi.stream key iv d) =
      some (.ok (.lib (.rc4 (md5.Sum (key ++ iv))) [])) := by
  have h := newRC4MD5Stream_eq key iv d
  have hl := md5_Sum_length (key ++ iv)
  have h1 : cipherMethod.lookup "rc4-md5" = some ⟨16, 16, newRC4MD5Stream⟩ := rfl
  have h2 : cipherMethod.lookup "rc4-md5-6" = some ⟨16, 6, newRC4MD5Stream⟩ := rfl
  refine ⟨h, hl, ?_, ?_, ?_, ?_⟩
  · simp [md5.New, Hash.Write]
  · simp [rc4.NewCipher, hl]
  · rw [h1]; simp [h]
  · rw [h2]; simp [h]

/-! ## The two IVs -/

/-- The digest of the empty input, as computed. -/
theorem sha256_Sum256_nil : sha256.Sum256 [] = emptyDigest := checkSum_sha256_New

/-- `riv` is the first `ivSize` bytes of the key followed by the digest of the
empty input; slicing succeeds when `ivSize` is at most 32. -/
theorem riv_ok (key : Slice) (n : Nat) (hn : n ≤ 32) :
    NewCipher.riv key n =
      .ok ⟨derivedIV key n, (sha256.New.Sum key).1.array.drop n⟩ := by
  have hD := emptyDigest_length
  have h2 : n ≤ (key.data ++ emptyDigest).length := by simp [hD]; omega
  unfold NewCipher.riv
  rw [Sum_sha256_New]
  unfold Slice.append
  split
  · have h3 : n ≤ key.data.length + 32 + (key.tail.length - 32) := by omega
    have h4 : List.take n (key.data ++ (emptyDigest ++ List.drop 32 key.tail)) =
        List.take n (key.data ++ emptyDigest) := by
      rw [← List.append_assoc, List.take_append_of_le_length h2]
    simp [Slice.sliceTo, Slice.cap, Slice.array, derivedIV, hD, h3, h4]
  · simp [Slice.sliceTo, Slice.cap, Slice.array, derivedIV, hD]
    omega

/-- `wiv` has the bytes of `riv`: the digest is appended after them and cut off again. -/
theorem wiv_ok (riv : Slice) (n : Nat) (h : riv.len = n) :
    NewCipher.wiv riv n = .ok ⟨riv.data, (sha256.New.Sum riv).1.array.drop n⟩ := by
  unfold NewCipher.wiv
  rw [Sum_sha256_New, ← h]
  exact sliceTo_append riv emptyDigest

/-- Both results of `Sum` are 32 bytes longer than the argument. -/
theorem Sum_sha256_len (b : Slice) : (sha256.New.Sum b).1.len = b.len + 32 := by
  rw [Sum_sha256_New]
  simp [Slice.len, append_data, emptyDigest_length]

/-- The capacity of the result of `Sum` is at least its length. -/
theorem len_le_cap (s : Slice) : s.len ≤ s.cap := by
  simp [Slice.len, Slice.cap]


/-- `NewCipher` never panics: an empty key and an unknown method are returned
as errors, both slicings are within bounds, and every registered IV size is
the block size of its CFB or CTR cipher. -/
theorem NewCipher_never_panics (method : String) (key : Slice) (msg : String) :
    NewCipher method key ≠ .panic msg := by
  by_cases hk : key.len = 0
  · simp [NewCipher, hk]
  cases hm : cipherMethod.lookup method with
  | none => simp [NewCipher, hk, hm]
  | some mi =>
  have hiv := (registry_ivSize_le method mi hm).2
  have hrl := derivedIV_length key mi.ivSize hiv
  have hkl := keyAfter_len key mi.ivSize
  rw [NewCipher_eq method key mi hk hm hiv]
  rcases registry_entries method mi hm with
    h | h | h | h | h | h | h | h | h | h | h | h | h | h | h | h <;>
    obtain ⟨rfl, rfl⟩ := h <;> simp only [] at hrl hkl ⊢
  · by_cases hA : key.data.length = 16 ∨ key.data.length = 24 ∨ key.data.length = 32
    · have hA2 : (keyAfter key 32).data.length = 16 ∨ (keyAfter key 32).data.length = 24 ∨ (keyAfter key 32).data.length = 32 := by rw [hkl]; exact hA
      rw [newAESGCMStream_ok _ _ _ hA (by rw [hrl]; decide), newAESGCMStream_ok _ _ _ hA2 (by rw [hrl]; decide)]
      simp [Res.bind]
    · rw [(aes_streams_err _ _ _ hA).1]
      simp [Res.bind]
  · by_cases hA : key.data.length = 16 ∨ key.data.length = 24 ∨ key.data.length = 32
    · have hA2 : (keyAfter key 32).data.length = 16 ∨ (keyAfter key 32).data.length = 24 ∨ (keyAfter key 32).data.length = 32 := by rw [hkl]; exact hA
      rw [newAESGCMStream_ok _ _ _ hA (by rw [hrl]; decide), newAESGCMStream_ok _ _ _ hA2 (by rw [hrl]; decide)]
      simp [Res.bind]
    · rw [(aes_streams_err _ _ _ hA).1]
      simp [Res.bind]
  · by_cases hA : key.data.length = 16 ∨ key.data.length = 24 ∨ key.data.length = 32
    · have hA2 : (keyAfter key 32).data.length = 16 ∨ (keyAfter key 32).data.length = 24 ∨ (keyAfter key 32).data.length = 32 := by rw [hkl]; exact hA
      rw [newAESGCMStream_ok _ _ _ hA (by rw [hrl]; decide), newAESGCMStream_ok _ _ _ hA2 (by rw [hrl]; decide)]
      simp [Res.bind]
    · rw [(aes_streams_err _ _ _ hA).1]
      simp [Res.bind]
  · by_cases hA : key.data.length = 16 ∨ key.data.length = 24 ∨ key.data.length = 32
    · have hA2 : (keyAfter key 16).data.length = 16 ∨ (keyAfter key 16).data.length = 24 ∨ (keyAfter key 16).data.length = 32 := by rw [hkl]; exact hA
      rw [newAESCFBStream_ok _ _ _ hA hrl, newAESCFBStream_ok _ _ _ hA2 hrl]
      simp [Res.bind]
    · rw [(aes_streams_err _ _ _ hA).2.1]
      simp [Res.bind]
  · by_cases hA : key.data.length = 16 ∨ key.data.length = 24 ∨ key.data.length = 32
    · have hA2 : (keyAfter key 16).data.length = 16 ∨ (keyAfter key 16).data.length = 24 ∨ (keyAfter key 16).data.length = 32 := by rw [hkl]; exact hA
      rw [newAESCFBStream_ok _ _ _ hA hrl, newAESCFBStream_ok _ _ _ hA2 hrl]
      simp [Res.bind]
    · rw [(aes_streams_err _ _ _ hA).2.1]
      simp [Res.bind]
  · by_cases hA : key.data.length = 16 ∨ key.data.length = 24 ∨ key.data.length = 32
    · have hA2 : (keyAfter key 16).data.length = 16 ∨ (keyAfter key 16).data.length = 24 ∨ (keyAfter key 16).data.length = 32 := by rw [hkl]; exact hA
      rw [newAESCFBStream_ok _ _ _ hA hrl, newAESCFBStream_ok _ _ _ hA2 hrl]
      simp [Res.bind]
    · rw [(aes_streams_err _ _ _ hA).2.1]
      simp [Res.bind]
  · by_cases hA : key.data.length = 16 ∨ key.data.length = 24 ∨ key.data.length = 32
    · have hA2 : (keyAfter key 16).data.length = 16 ∨ (keyAfter key 16).data.length = 24 ∨ (keyAfter key 16).data.length = 32 := by rw [hkl]; exact hA
      rw [newAESCTRStream_ok _ _ _ hA hrl, newAESCTRStream_ok _ _ _ hA2 hrl]
      simp [Res.bind]
    · rw [(aes_streams_err _ _ _ hA).2.2]
      simp [Res.bind]
  · by_cases hA : key.data.length = 16 ∨ key.data.length = 24 ∨ key.data.length = 32
    · have hA2 : (keyAfter key 16).data.length = 16 ∨ (keyAfter key 16).data.length = 24 ∨ (keyAfter key 16).data.length = 32 := by rw [hkl]; exact hA
      rw [newAESCTRStream_ok _ _ _ hA hrl, newAESCTRStream_ok _ _ _ hA2 hrl]
      simp [Res.bind]
    · rw [(aes_streams_err _ _ _ hA).2.2]
      simp [Res.bind]
  · by_cases hA : key.data.length = 16 ∨ key.data.length = 24 ∨ key.data.length = 32
    · have hA2 : (keyAfter key 16).data.length = 16 ∨ (keyAfter key 16).data.length = 24 ∨ (keyAfter key 16).data.length = 32 := by rw [hkl]; exact hA
      rw [newAESCTRStream_ok _ _ _ hA hrl, newAESCTRStream_ok _ _ _ hA2 hrl]
      simp [Res.bind]
    · rw [(aes_streams_err _ _ _ hA).2.2]
      simp [Res.bind]
  · by_cases hA : key.data.length = 8
    · have hA2 : (keyAfter key 8).data.length = 8 := by rw [hkl]; exact hA
      rw [newDESCFBStream_ok _ _ _ hA hrl, newDESCFBStream_ok _ _ _ hA2 hrl]
      simp [Res.bind]
    · rw [newDESCFBStream_err _ _ _ hA]
      simp [Res.bind]
  · by_cases hA : 1 ≤ key.data.length ∧ key.data.length ≤ 56
    · have hA2 : 1 ≤ (keyAfter key 8).data.length ∧ (keyAfter key 8).data.length ≤ 56 := by rw [hkl]; exact hA
      rw [newBlowFishStream_ok _ _ _ hA hrl, newBlowFishStream_ok _ _ _ hA2 hrl]
      simp [Res.bind]
    · rw [newBlowFishStream_err _ _ _ hA]
      simp [Res.bind]
  · by_cases hA : key.data.length = 16
    · have hA2 : (keyAfter key 8).data.length = 16 := by rw [hkl]; exact hA
      rw [newCast5Stream_ok _ _ _ hA hrl, newCast5Stream_ok _ _ _ hA2 hrl]
      simp [Res.bind]
    · rw [newCast5Stream_err _ _ _ hA]
      simp [Res.bind]
  · rw [newRC4MD5Stream_eq, newRC4MD5Stream_eq]
    simp [Res.bind]
  · rw [newRC4MD5Stream_eq, newRC4MD5Stream_eq]
    simp [Res.bind]
  · by_cases hA : key.data.length = 32
    · have hA2 : (keyAfter key 8).data.length = 32 := by rw [hkl]; exact hA
      rw [newChaCha20Stream_ok _ _ _ hA (Or.inl hrl), newChaCha20Stream_ok _ _ _ hA2 (Or.inl hrl)]
      simp [Res.bind]
    · rw [newChaCha20Stream_err _ _ _ hA]
      simp [Res.bind]
  · by_cases hA : key.data.length = 32
    · have hA2 : (keyAfter key 12).data.length = 32 := by rw [hkl]; exact hA
      rw [newChaCha20Stream_ok _ _ _ hA (Or.inr hrl), newChaCha20Stream_ok _ _ _ hA2 (Or.inr hrl)]
      simp [Res.bind]
    · rw [newChaCha20Stream_err _ _ _ hA]
      simp [Res.bind]

/-- C19: for every registered method and every key, `ivSize <= 32 <= len(key) + 32`;
the result of `Sum(key)` has `len(key) + 32` bytes and the result of `Sum(riv)`
has `ivSize + 32` bytes, so both truncations to `ivSize` bytes are within
bounds: `riv` and `wiv` are computed without a panic and each has exactly
`ivSize` bytes; and `NewCipher` as a whole never panics. -/
theorem iv_slicing_in_bounds (method : String) (mi : cipherInfo) (key : Slice)
    (hm : cipherMethod.lookup method = some mi) :
    mi.ivSize ≤ 32 ∧ 32 ≤ key.len + 32 ∧
    (sha256.New.Sum key).1.len = key.len + 32 ∧ mi.ivSize ≤ (sha256.New.Sum key).1.len ∧
    ∃ riv wiv, NewCipher.riv key mi.ivSize = .ok riv ∧ riv.len = mi.ivSize ∧
      (sha256.New.Sum riv).1.len = mi.ivSize + 32 ∧ mi.ivSize ≤ (sha256.New.Sum riv).1.len ∧
      NewCipher.wiv riv mi.ivSize = .ok wiv ∧ wiv.len = mi.ivSize ∧
      ∀ msg, NewCipher method key ≠ .panic msg := by
  have hiv := (registry_ivSize_le method mi hm).2
  have hrl := derivedIV_length key mi.ivSize hiv
  have hr := riv_ok key mi.ivSize hiv
  have hw := wiv_ok ⟨derivedIV key mi.ivSize, (sha256.New.Sum key).1.array.drop mi.ivSize⟩
    mi.ivSize hrl
  have h1 := Sum_sha256_len key
  have h2 := Sum_sha256_len ⟨derivedIV key mi.ivSize, (sha256.New.Sum key).1.array.drop mi.ivSize⟩
  have h3 : Slice.len ⟨derivedIV key mi.ivSize, (sha256.New.Sum key).1.array.drop mi.ivSize⟩ =
      mi.ivSize := hrl
  rw [h3] at h2
  refine ⟨hiv, Nat.le_add_left _ _, h1, by omega, _, _, hr, hrl, h2, by omega, hw, hrl,
    fun msg => NewCipher_never_panics method key msg⟩

/-- For "rc4-md5-6" and a 3-byte key, shorter than the IV: both slicings succeed. -/
theorem iv_slicing_in_bounds_witness :
    ∃ riv wiv, NewCipher.riv ⟨[1, 2, 3], []⟩ 6 = .ok riv ∧ riv.len = 6 ∧
      NewCipher.wiv riv 6 = .ok wiv ∧ wiv.len = 6 := by
  obtain ⟨_, _, _, _, riv, wiv, h1, h2, _, _, h5, h6, _⟩ :=
    iv_slicing_in_bounds "rc4-md5-6" ⟨16, 6, newRC4MD5Stream⟩ ⟨[1, 2, 3], []⟩ rfl
  exact ⟨riv, wiv, h1, h2, h5, h6⟩

/-- C18: for every registered method and every key (non-empty or not), `riv` is the
first `ivSize` bytes of the key followed by the SHA-256 digest of the empty
input. Nothing is written to the hash before `Sum`, so the digest that enters
is that of the empty input whatever the key, and the key itself is never
hashed. In particular, when the key has at least `ivSize` bytes, `riv` is the
first `ivSize` bytes of the key. These are the bytes the read constructor
receives. -/
theorem read_iv_is_key_then_empty_digest (method : String) (mi : cipherInfo) (key : Slice)
    (hm : cipherMethod.lookup method = some mi) :
    sha256.New.written = [] ∧ sha256.New.checkSum = sha256.Sum256 [] ∧
    ∃ riv, NewCipher.riv key mi.ivSize = .ok riv ∧
      riv.data = (key.data ++ sha256.Sum256 []).take mi.ivSize ∧
      (mi.ivSize ≤ key.len → riv.data = key.data.take mi.ivSize) ∧
      ∀ c, NewCipher method key = .ok c →
        mi.stream key.data riv.data true = .ok c.ReadStream := by
  have hiv := (registry_ivSize_le method mi hm).2
  refine ⟨rfl, rfl, _, riv_ok key mi.ivSize hiv, ?_, ?_, ?_⟩
  · rw [sha256_Sum256_nil]; rfl
  · intro hle
    unfold Slice.len at hle
    simp only [derivedIV]
    exact List.take_append_of_le_length hle
  · intro c hc
    exact (NewCipher_ok_parts method key mi c hm hc).1

/-- For "rc4-md5-6": a 3-byte key gives the IV 01 02 03 e3 b0 c4, and the
8-byte key 1, ..., 8 gives its first six bytes. -/
theorem read_iv_is_key_then_empty_digest_witness :
    (∃ riv, NewCipher.riv ⟨[1, 2, 3], []⟩ 6 = .ok riv ∧
      riv.data = ([1, 2, 3] ++ sha256.Sum256 []).take 6) ∧
    ([1, 2, 3] ++ emptyDigest).take 6 = [1, 2, 3, 0xe3, 0xb0, 0xc4] ∧
    (∃ riv, NewCipher.riv ⟨[1, 2, 3, 4, 5, 6, 7, 8], []⟩ 6 = .ok riv ∧
      riv.data = [1, 2, 3, 4, 5, 6]) := by
  obtain ⟨_, _, riv, h1, h2, _, _⟩ := read_iv_is_key_then_empty_digest "rc4-md5-6"
    ⟨16, 6, newRC4MD5Stream⟩ ⟨[1, 2, 3], []⟩ rfl
  obtain ⟨_, _, riv2, g1, _, g3, _⟩ := read_iv_is_key_then_empty_digest "rc4-md5-6"
    ⟨16, 6, newRC4MD5Stream⟩ ⟨[1, 2, 3, 4, 5, 6, 7, 8], []⟩ rfl
  exact ⟨⟨riv, h1, h2⟩, by decide, ⟨riv2, g1, g3 (by decide)⟩⟩

/-- Two registered methods with the same IV size and the same constructor give
the same outcome for every key: the same error, or sessions with the same
streams and key. -/
theorem NewCipher_parts_congr (m1 m2 : String) (mi1 mi2 : cipherInfo) (key : Slice)
    (h1 : cipherMethod.lookup m1 = some mi1) (h2 : cipherMethod.lookup m2 = some mi2)
    (hiv : mi1.ivSize = mi2.ivSize) (hs : mi1.stream = mi2.stream) :
    (NewCipher m1 key).map Cipher.parts = (NewCipher m2 key).map Cipher.parts := by
  by_cases hk : key.len = 0
  · simp [NewCipher, hk]
  rw [NewCipher_eq m1 key mi1 hk h1 (registry_ivSize_le m1 mi1 h1).2,
    NewCipher_eq m2 key mi2 hk h2 (registry_ivSize_le m2 mi2 h2).2, hiv, hs]
  cases mi2.stream key.data (derivedIV key mi2.ivSize) true with
  | err m => rfl
  | panic m => rfl
  | ok rs =>
    cases mi2.stream (keyAfter key mi2.ivSize).data (derivedIV key mi2.ivSize) false with
    | err m => rfl
    | panic m => rfl
    | ok ws => rfl

set_option maxRecDepth 100000 in
/-- C20: `NewCipher` never reads `keySize`. For every key, the methods
aes-128-X, aes-192-X and aes-256-X, for X one of gcm, cfb and ctr, give the
same outcome: the same error, or sessions with the same read stream, the same
write stream (hence the same IVs) and the same key. The AES variant is fixed by
the length of the key, not by the method name: "aes-128-ctr" with the 32-byte
key 1, ..., 32 builds its streams over AES with that 32-byte key. -/
theorem NewCipher_ignores_keySize (key : Slice) :
    (NewCipher "aes-128-gcm" key).map Cipher.parts = (NewCipher "aes-192-gcm" key).map Cipher.parts ∧
    (NewCipher "aes-192-gcm" key).map Cipher.parts = (NewCipher "aes-256-gcm" key).map Cipher.parts ∧
    (NewCipher "aes-128-cfb" key).map Cipher.parts = (NewCipher "aes-192-cfb" key).map Cipher.parts ∧
    (NewCipher "aes-192-cfb" key).map Cipher.parts = (NewCipher "aes-256-cfb" key).map Cipher.parts ∧
    (NewCipher "aes-128-ctr" key).map Cipher.parts = (NewCipher "aes-192-ctr" key).map Cipher.parts ∧
    (NewCipher "aes-192-ctr" key).map Cipher.parts = (NewCipher "aes-256-ctr" key).map Cipher.parts ∧
    (NewCipher "aes-128-ctr" key32).map Cipher.parts =
      .ok (.lib (.ctr (.aes key32.data) (key32.data.take 16)) [],
           .lib (.ctr (.aes key32.data) (key32.data.take 16)) [], key32) := by
  refine ⟨?_, ?_, ?_, ?_, ?_, ?_, by decide!⟩
  · exact NewCipher_parts_congr "aes-128-gcm" "aes-192-gcm" ⟨16, 32, newAESGCMStream⟩
      ⟨24, 32, newAESGCMStream⟩ key rfl rfl rfl rfl
  · exact NewCipher_parts_congr "aes-192-gcm" "aes-256-gcm" ⟨24, 32, newAESGCMStream⟩
      ⟨32, 32, newAESGCMStream⟩ key rfl rfl rfl rfl
  · exact NewCipher_parts_congr "aes-128-cfb" "aes-192-cfb" ⟨16, 16, newAESCFBStream⟩
      ⟨24, 16, newAESCFBStream⟩ key rfl rfl rfl rfl
  · exact NewCipher_parts_congr "aes-192-cfb" "aes-256-cfb" ⟨24, 16, newAESCFBStream⟩
      ⟨32, 16, newAESCFBStream⟩ key rfl rfl rfl rfl
  · exact NewCipher_parts_congr "aes-128-ctr" "aes-192-ctr" ⟨16, 16, newAESCTRStream⟩
      ⟨24, 16, newAESCTRStream⟩ key rfl rfl rfl rfl
  · exact NewCipher_parts_congr "aes-192-ctr" "aes-256-ctr" ⟨24, 16, newAESCTRStream⟩
      ⟨32, 16, newAESCTRStream⟩ key rfl rfl rfl rfl

/-- Whether a registered constructor returns a stream, and which error it
returns otherwise, depends on the key only through its length (for an IV of
the registered size). -/
theorem stream_outcome_by_length (method : String) (mi : cipherInfo) (k1 k2 iv : List Byte)
    (d : Bool) (hm : cipherMethod.lookup method = some mi) (hlen : k1.length = k2.length)
    (hiv : iv.length = mi.ivSize) :
    (mi.stream k1 iv d).isOk = (mi.stream k2 iv d).isOk ∧
    ∀ e, mi.stream k1 iv d = .err e ↔ mi.stream k2 iv d = .err e := by
  rcases registry_entries method mi hm with
    h | h | h | h | h | h | h | h | h | h | h | h | h | h | h | h <;>
    obtain ⟨rfl, rfl⟩ := h <;> simp only [] at hiv ⊢
  · by_cases hA : k1.length = 16 ∨ k1.length = 24 ∨ k1.length = 32
    · have hA2 : k2.length = 16 ∨ k2.length = 24 ∨ k2.length = 32 := by rw [← hlen]; exact hA
      rw [newAESGCMStream_ok _ _ _ hA (by rw [hiv]; decide), newAESGCMStream_ok _ _ _ hA2 (by rw [hiv]; decide)]
      simp [Res.isOk]
    · have hA2 : ¬ (k2.length = 16 ∨ k2.length = 24 ∨ k2.length = 32) := by rw [← hlen]; exact hA
      rw [(aes_streams_err k1 iv d hA).1, (aes_streams_err k2 iv d hA2).1, hlen]
      simp [Res.isOk]
  · by_cases hA : k1.length = 16 ∨ k1.length = 24 ∨ k1.length = 32
    · have hA2 : k2.length = 16 ∨ k2.length = 24 ∨ k2.length = 32 := by rw [← hlen]; exact hA
      rw [newAESGCMStream_ok _ _ _ hA (by rw [hiv]; decide), newAESGCMStream_ok _ _ _ hA2 (by rw [hiv]; decide)]
      simp [Res.isOk]
    · have hA2 : ¬ (k2.length = 16 ∨ k2.length = 24 ∨ k2.length = 32) := by rw [← hlen]; exact hA
      rw [(aes_streams_err k1 iv d hA).1, (aes_streams_err k2 iv d hA2).1, hlen]
      simp [Res.isOk]
  · by_cases hA : k1.length = 16 ∨ k1.length = 24 ∨ k1.length = 32
    · have hA2 : k2.length = 16 ∨ k2.length = 24 ∨ k2.length = 32 := by rw [← hlen]; exact hA
      rw [newAESGCMStream_ok _ _ _ hA (by rw [hiv]; decide), newAESGCMStream_ok _ _ _ hA2 (by rw [hiv]; decide)]
      simp [Res.isOk]
    · have hA2 : ¬ (k2.length = 16 ∨ k2.length = 24 ∨ k2.length = 32) := by rw [← hlen]; exact hA
      rw [(aes_streams_err k1 iv d hA).1, (aes_streams_err k2 iv d hA2).1, hlen]
      simp [Res.isOk]
  · by_cases hA : k1.length = 16 ∨ k1.length = 24 ∨ k1.length = 32
    · have hA2 : k2.length = 16 ∨ k2.length = 24 ∨ k2.length = 32 := by rw [← hlen]; exact hA
      rw [newAESCFBStream_ok _ _ _ hA hiv, newAESCFBStream_ok _ _ _ hA2 hiv]
      simp [Res.isOk]
    · have hA2 : ¬ (k2.length = 16 ∨ k2.length = 24 ∨ k2.length = 32) := by rw [← hlen]; exact hA
      rw [(aes_streams_err k1 iv d hA).2.1, (aes_streams_err k2 iv d hA2).2.1, hlen]
      simp [Res.isOk]
  · by_cases hA : k1.length = 16 ∨ k1.length = 24 ∨ k1.length = 32
    · have hA2 : k2.length = 16 ∨ k2.length = 24 ∨ k2.length = 32 := by rw [← hlen]; exact hA
      rw [newAESCFBStream_ok _ _ _ hA hiv, newAESCFBStream_ok _ _ _ hA2 hiv]
      simp [Res.isOk]
    · have hA2 : ¬ (k2.length = 16 ∨ k2.length = 24 ∨ k2.length = 32) := by rw [← hlen]; exact hA
      rw [(aes_streams_err k1 iv d hA).2.1, (aes_streams_err k2 iv d hA2).2.1, hlen]
      simp [Res.isOk]
  · by_cases hA : k1.length = 16 ∨ k1.length = 24 ∨ k1.length = 32
    · have hA2 : k2.length = 16 ∨ k2.length = 24 ∨ k2.length = 32 := by rw [← hlen]; exact hA
      rw [newAESCFBStream_ok _ _ _ hA hiv, newAESCFBStream_ok _ _ _ hA2 hiv]
      simp [Res.isOk]
    · have hA2 : ¬ (k2.length = 16 ∨ k2.length = 24 ∨ k2.length = 32) := by rw [← hlen]; exact hA
      rw [(aes_streams_err k1 iv d hA).2.1, (aes_streams_err k2 iv d hA2).2.1, hlen]
      simp [Res.isOk]
  · by_cases hA : k1.length = 16 ∨ k1.length = 24 ∨ k1.length = 32
    · have hA2 : k2.length = 16 ∨ k2.length = 24 ∨ k2.length = 32 := by rw [← hlen]; exact hA
      rw [newAESCTRStream_ok _ _ _ hA hiv, newAESCTRStream_ok _ _ _ hA2 hiv]
      simp [Res.isOk]
    · have hA2 : ¬ (k2.length = 16 ∨ k2.length = 24 ∨ k2.length = 32) := by rw [← hlen]; exact hA
      rw [(aes_streams_err k1 iv d hA).2.2, (aes_streams_err k2 iv d hA2).2.2, hlen]
      simp [Res.isOk]
  · by_cases hA : k1.length = 16 ∨ k1.length = 24 ∨ k1.length = 32
    · have hA2 : k2.length = 16 ∨ k2.length = 24 ∨ k2.length = 32 := by rw [← hlen]; exact hA
      rw [newAESCTRStream_ok _ _ _ hA hiv, newAESCTRStream_ok _ _ _ hA2 hiv]
      simp [Res.isOk]
    · have hA2 : ¬ (k2.length = 16 ∨ k2.length = 24 ∨ k2.length = 32) := by rw [← hlen]; exact hA
      rw [(aes_streams_err k1 iv d hA).2.2, (aes_streams_err k2 iv d hA2).2.2, hlen]
      simp [Res.isOk]
  · by_cases hA : k1.length = 16 ∨ k1.length = 24 ∨ k1.length = 32
    · have hA2 : k2.length = 16 ∨ k2.length = 24 ∨ k2.length = 32 := by rw [← hlen]; exact hA
      rw [newAESCTRStream_ok _ _ _ hA hiv, newAESCTRStream_ok _ _ _ hA2 hiv]
      simp [Res.isOk]
    · have hA2 : ¬ (k2.length = 16 ∨ k2.length = 24 ∨ k2.length = 32) := by rw [← hlen]; exact hA
      rw [(aes_streams_err k1 iv d hA).2.2, (aes_streams_err k2 iv d hA2).2.2, hlen]
      simp [Res.isOk]
  · by_cases hA : k1.length = 8
    · have hA2 : k2.length = 8 := by rw [← hlen]; exact hA
      rw [newDESCFBStream_ok _ _ _ hA hiv, newDESCFBStream_ok _ _ _ hA2 hiv]
      simp [Res.isOk]
    · have hA2 : ¬ (k2.length = 8) := by rw [← hlen]; exact hA
      rw [newDESCFBStream_err k1 iv d hA, newDESCFBStream_err k2 iv d hA2, hlen]
      simp [Res.isOk]
  · by_cases hA : 1 ≤ k1.length ∧ k1.length ≤ 56
    · have hA2 : 1 ≤ k2.length ∧ k2.length ≤ 56 := by rw [← hlen]; exact hA
      rw [newBlowFishStream_ok _ _ _ hA hiv, newBlowFishStream_ok _ _ _ hA2 hiv]
      simp [Res.isOk]
    · have hA2 : ¬ (1 ≤ k2.length ∧ k2.length ≤ 56) := by rw [← hlen]; exact hA
      rw [newBlowFishStream_err k1 iv d hA, newBlowFishStream_err k2 iv d hA2, hlen]
      simp [Res.isOk]
  · by_cases hA : k1.length = 16
    · have hA2 : k2.length = 16 := by rw [← hlen]; exact hA
      rw [newCast5Stream_ok _ _ _ hA hiv, newCast5Stream_ok _ _ _ hA2 hiv]
      simp [Res.isOk]
    · have hA2 : ¬ (k2.length = 16) := by rw [← hlen]; exact hA
      rw [newCast5Stream_err k1 iv d hA, newCast5Stream_err k2 iv d hA2]
      simp [Res.isOk]
  · rw [newRC4MD5Stream_eq, newRC4MD5Stream_eq]
    simp [Res.isOk]
  · rw [newRC4MD5Stream_eq, newRC4MD5Stream_eq]
    simp [Res.isOk]
  · by_cases hA : k1.length = 32
    · have hA2 : k2.length = 32 := by rw [← hlen]; exact hA
      rw [newChaCha20Stream_ok _ _ _ hA (Or.inl hiv), newChaCha20Stream_ok _ _ _ hA2 (Or.inl hiv)]
      simp [Res.isOk]
    · have hA2 : ¬ (k2.length = 32) := by rw [← hlen]; exact hA
      rw [newChaCha20Stream_err k1 iv d hA, newChaCha20Stream_err k2 iv d hA2]
      simp [Res.isOk]
  · by_cases hA : k1.length = 32
    · have hA2 : k2.length = 32 := by rw [← hlen]; exact hA
      rw [newChaCha20Stream_ok _ _ _ hA (Or.inr hiv), newChaCha20Stream_ok _ _ _ hA2 (Or.inr hiv)]
      simp [Res.isOk]
    · have hA2 : ¬ (k2.length = 32) := by rw [← hlen]; exact hA
      rw [newChaCha20Stream_err k1 iv d hA, newChaCha20Stream_err k2 iv d hA2]
      simp [Res.isOk]

/-- The control flow of `NewCipher`, for every registered method and every
non-empty key: it invokes the constructor with decrypt=true on the key and
`riv` and, only if that succeeded, with decrypt=false on the session's key
(the slice `c.key` as it is then, `key2` below) and `wiv`. It returns a session
exactly when both invocations succeed, which is also exactly when the
constructor succeeds on the key bytes as passed with `riv` and with `wiv`; the
session's ReadStream is the result of the first invocation and its WriteStream
the result of the second. If the first fails, `NewCipher` returns its error
and no session; if the first succeeds and the second fails, `NewCipher`
returns the second's error and no session. At the second invocation the key
has the length it was passed with, and the bytes it was passed with whenever
the key slice has fewer than 32 spare bytes of capacity or is no longer than
the IV. -/
theorem NewCipher_session_iff_both_constructors (method : String) (mi : cipherInfo)
    (key : Slice) (hk : key.len ≠ 0) (hm : cipherMethod.lookup method = some mi) :
    ∃ riv wiv key2, NewCipher.riv key mi.ivSize = .ok riv ∧
      NewCipher.wiv riv mi.ivSize = .ok wiv ∧
      key2.len = key.len ∧
      ((key.tail.length < 32 ∨ key.len ≤ mi.ivSize) → key2.data = key.data) ∧
      ((∃ c, NewCipher method key = .ok c) ↔
        ((∃ rs, mi.stream key.data riv.data true = .ok rs) ∧
         (∃ ws, mi.stream key2.data wiv.data false = .ok ws))) ∧
      ((∃ c, NewCipher method key = .ok c) ↔
        ((∃ rs, mi.stream key.data riv.data true = .ok rs) ∧
         (∃ ws, mi.stream key.data wiv.data false = .ok ws))) ∧
      (∀ c, NewCipher method key = .ok c →
        mi.stream key.data riv.data true = .ok c.ReadStream ∧
        mi.stream key2.data wiv.data false = .ok c.WriteStream ∧ c.key = key2 ∧
        c.info.keySize = mi.keySize ∧ c.info.ivSize = mi.ivSize) ∧
      (∀ e, mi.stream key.data riv.data true = .err e → NewCipher method key = .err e) ∧
      (∀ rs e, mi.stream key.data riv.data true = .ok rs →
        (mi.stream key2.data wiv.data false = .err e ∨
          mi.stream key.data wiv.data false = .err e) →
        NewCipher method key = .err e) := by
  have hiv := (registry_ivSize_le method mi hm).2
  have hrl := derivedIV_length key mi.ivSize hiv
  have heq := NewCipher_eq method key mi hk hm hiv
  have hkl : (keyAfter key mi.ivSize).data.length = key.data.length := keyAfter_len key mi.ivSize
  obtain ⟨hok, herr⟩ := stream_outcome_by_length method mi (keyAfter key mi.ivSize).data
    key.data (derivedIV key mi.ivSize) false hm hkl hrl
  have hboth : (∃ c, NewCipher method key = .ok c) ↔
      ((∃ rs, mi.stream key.data (derivedIV key mi.ivSize) true = .ok rs) ∧
       (∃ ws, mi.stream (keyAfter key mi.ivSize).data (derivedIV key mi.ivSize) false =
          .ok ws)) := by
    constructor
    · rintro ⟨c, hc⟩
      obtain ⟨h1, h2, _⟩ := NewCipher_ok_parts method key mi c hm hc
      exact ⟨⟨_, h1⟩, ⟨_, h2⟩⟩
    · rintro ⟨⟨rs, h1⟩, ⟨ws, h2⟩⟩
      rw [heq, h1, h2]
      exact ⟨_, rfl⟩
  refine ⟨_, _, keyAfter key mi.ivSize, riv_ok key mi.ivSize hiv, wiv_ok _ mi.ivSize hrl,
    hkl, ?_, hboth, ?_, ?_, ?_, ?_⟩
  · intro h
    rcases h with h | h
    · rw [keyAfter_of_small_tail key _ h]
    · exact keyAfter_data_of_len_le key _ h
  · rw [hboth]
    constructor
    · rintro ⟨h1, ⟨ws, h2⟩⟩
      refine ⟨h1, Res.exists_of_isOk _ ?_⟩
      rw [← hok, h2]
      rfl
    · rintro ⟨h1, ⟨ws, h2⟩⟩
      refine ⟨h1, Res.exists_of_isOk _ ?_⟩
      simp only [] at h2
      rw [hok, h2]
      rfl
  · intro c hc
    obtain ⟨h1, h2, h3⟩ := NewCipher_ok_parts method key mi c hm hc
    refine ⟨h1, h2, h3, ?_, ?_⟩
    · rw [heq] at hc
      rw [h1, h2] at hc
      simp only [Res.bind, Res.ok.injEq] at hc
      rw [← hc]
    · rw [heq] at hc
      rw [h1, h2] at hc
      simp only [Res.bind, Res.ok.injEq] at hc
      rw [← hc]
  · intro e h1
    simp only [] at h1
    rw [heq, h1]
    rfl
  · intro rs e h1 h2
    simp only [] at h1 h2
    have h3 : mi.stream (keyAfter key mi.ivSize).data (derivedIV key mi.ivSize) false =
        .err e := by
      rcases h2 with h2 | h2
      · exact h2
      · exact (herr e).mpr h2
    rw [heq, h1, h3]
    rfl

/-- For "des-cfb" and the 8-byte key 1, ..., 8, which has no spare capacity:
the second invocation receives the key bytes as passed, and a session is
returned exactly when both invocations succeed. -/
theorem NewCipher_session_iff_both_constructors_witness :
    ∃ (riv wiv key2 : Slice), NewCipher.riv ⟨[1, 2, 3, 4, 5, 6, 7, 8], []⟩ 8 = .ok riv ∧
      NewCipher.wiv riv 8 = .ok wiv ∧ key2.data = [1, 2, 3, 4, 5, 6, 7, 8] ∧
      ((∃ c, NewCipher "des-cfb" ⟨[1, 2, 3, 4, 5, 6, 7, 8], []⟩ = .ok c) ↔
        ((∃ rs, newDESCFBStream [1, 2, 3, 4, 5, 6, 7, 8] riv.data true = .ok rs) ∧
         (∃ ws, newDESCFBStream key2.data wiv.data false = .ok ws))) := by
  obtain ⟨riv, wiv, key2, h1, h2, _, h4, h5, _⟩ :=
    NewCipher_session_iff_both_constructors "des-cfb" ⟨8, 8, newDESCFBStream⟩
      ⟨[1, 2, 3, 4, 5, 6, 7, 8], []⟩ (by decide) rfl
  exact ⟨riv, wiv, key2, h1, h2, h4 (Or.inl (by decide)), h5⟩

set_option maxRecDepth 100000 in
/-- C13: for "chacha20", the 32-byte key 1, ..., 32 passed once in a 32-byte
array and once, the same bytes, in a 64-byte array. The two sessions get the
same read stream and the same IV (the first eight key bytes) in both
directions, but the second session's write stream is keyed with the key whose
bytes 8 to 31 have been overwritten by the digest of the empty input. With
example primitives, the two write streams encrypt the first buffer 7 to 51
and to 180. -/
theorem NewCipher_depends_on_key_capacity :
    key32.data = key32spare.data ∧
    (NewCipher "chacha20" key32).map Cipher.parts =
      .ok (.lib (.chacha20 key32.data (key32.data.take 8)) [],
           .lib (.chacha20 key32.data (key32.data.take 8)) [], key32) ∧
    (NewCipher "chacha20" key32spare).map Cipher.parts =
      .ok (.lib (.chacha20 key32.data (key32.data.take 8)) [],
           .lib (.chacha20 (key32.data.take 8 ++ emptyDigest.take 24) (key32.data.take 8)) [],
           ⟨key32.data.take 8 ++ emptyDigest.take 24,
            emptyDigest.drop 24 ++ emptyDigest.drop 8⟩) ∧
    Stream.transform toyPrimitives (.lib (.chacha20 key32.data (key32.data.take 8)) []) [7] =
      .ok [51] ∧
    Stream.transform toyPrimitives
      (.lib (.chacha20 (key32.data.take 8 ++ emptyDigest.take 24) (key32.data.take 8)) []) [7] =
      .ok [180] := by
  exact ⟨by decide, by decide!, by decide!, by decide!, by decide!⟩

/-- Both IVs depend on the key bytes alone, and for key slices that
`NewCipher` leaves intact so do the two streams: two calls with the same
method and the same key bytes then return the same error or sessions with the
same streams. -/
theorem NewCipher_deterministic_of_intact_keys (method : String) (mi : cipherInfo)
    (k1 k2 : Slice) (hm : cipherMethod.lookup method = some mi) (hd : k1.data = k2.data)
    (h1 : k1.tail.length < 32 ∨ k1.len ≤ mi.ivSize)
    (h2 : k2.tail.length < 32 ∨ k2.len ≤ mi.ivSize) :
    derivedIV k1 mi.ivSize = derivedIV k2 mi.ivSize ∧
    (NewCipher method k1).map (fun c => (c.ReadStream, c.WriteStream)) =
      (NewCipher method k2).map (fun c => (c.ReadStream, c.WriteStream)) := by
  have hiv := (registry_ivSize_le method mi hm).2
  have e1 : (keyAfter k1 mi.ivSize).data = k1.data := by
    rcases h1 with h | h
    · rw [keyAfter_of_small_tail k1 _ h]
    · exact keyAfter_data_of_len_le k1 _ h
  have e2 : (keyAfter k2 mi.ivSize).data = k2.data := by
    rcases h2 with h | h
    · rw [keyAfter_of_small_tail k2 _ h]
    · exact keyAfter_data_of_len_le k2 _ h
  have hiveq : derivedIV k1 mi.ivSize = derivedIV k2 mi.ivSize := by
    simp only [derivedIV, hd]
  refine ⟨hiveq, ?_⟩
  by_cases hk : k1.len = 0
  · have hk2 : k2.len = 0 := by unfold Slice.len at hk ⊢; rw [← hd]; exact hk
    simp [NewCipher, hk, hk2]
  have hk2 : k2.len ≠ 0 := by unfold Slice.len at hk ⊢; rw [← hd]; exact hk
  rw [NewCipher_eq method k1 mi hk hm hiv, NewCipher_eq method k2 mi hk2 hm hiv, e1, e2,
    hiveq, hd]
  cases mi.stream k2.data (derivedIV k2 mi.ivSize) true with
  | err m => rfl
  | panic m => rfl
  | ok rs =>
    cases mi.stream k2.data (derivedIV k2 mi.ivSize) false with
    | err m => rfl
    | panic m => rfl
    | ok ws => rfl

/-! ## Where a constructor's error comes from -/

/-- `newCFBStream` never returns an error value: it returns a stream or panics. -/
theorem newCFBStream_ne_err (block : Block) (iv : List Byte) (d : Bool) (e : String) :
    newCFBStream block iv d ≠ .err e := by
  by_cases hiv : iv.length = block.BlockSize
  · rw [newCFBStream_ok block iv d hiv]
    simp
  · cases d <;>
      simp [newCFBStream, cipher.NewCFBEncrypter, cipher.NewCFBDecrypter, hiv, Res.bind]

/-- An error of the AES GCM constructor, for a non-empty nonce, is the error of `aes.NewCipher`. -/
theorem newAESGCMStream_err_inv (k iv : List Byte) (d : Bool) (e : String)
    (hiv : iv.length ≠ 0) (h : newAESGCMStream k iv d = .err e) : aes.NewCipher k = .err e := by
  unfold newAESGCMStream at h
  cases hb : aes.NewCipher k with
  | ok b =>
    rw [hb] at h
    have hb2 : b = .aes k := by
      unfold aes.NewCipher at hb
      split at hb
      · simp only [Res.ok.injEq] at hb; exact hb.symm
      · cases hb
    subst hb2
    simp [Res.bind, NewGCMStreamer, cipher.NewGCMWithNonceSize, hiv, Block.BlockSize] at h
  | err m => rw [hb] at h; simpa [Res.bind] using h
  | panic m => rw [hb] at h; simp [Res.bind] at h

/-- An error of the AES CFB constructor is the error of `aes.NewCipher`. -/
theorem newAESCFBStream_err_inv (k iv : List Byte) (d : Bool) (e : String)
    (h : newAESCFBStream k iv d = .err e) : aes.NewCipher k = .err e := by
  unfold newAESCFBStream at h
  cases hb : aes.NewCipher k with
  | ok b => rw [hb] at h; exact absurd h (newCFBStream_ne_err b iv d e)
  | err m => rw [hb] at h; simpa [Res.bind] using h
  | panic m => rw [hb] at h; simp [Res.bind] at h

/-- An error of the AES CTR constructor is the error of `aes.NewCipher`. -/
theorem newAESCTRStream_err_inv (k iv : List Byte) (d : Bool) (e : String)
    (h : newAESCTRStream k iv d = .err e) : aes.NewCipher k = .err e := by
  unfold newAESCTRStream at h
  cases hb : aes.NewCipher k with
  | ok b =>
    rw [hb] at h
    by_cases hiv : iv.length = b.BlockSize <;> simp [Res.bind, cipher.NewCTR, hiv] at h
  | err m => rw [hb] at h; simpa [Res.bind] using h
  | panic m => rw [hb] at h; simp [Res.bind] at h

/-- An error of the DES CFB constructor is the error of `des.NewCipher`. -/
theorem newDESCFBStream_err_inv (k iv : List Byte) (d : Bool) (e : String)
    (h : newDESCFBStream k iv d = .err e) : des.NewCipher k = .err e := by
  unfold newDESCFBStream at h
  cases hb : des.NewCipher k with
  | ok b => rw [hb] at h; exact absurd h (newCFBStream_ne_err b iv d e)
  | err m => rw [hb] at h; simpa [Res.bind] using h
  | panic m => rw [hb] at h; simp [Res.bind] at h

/-- An error of the Blowfish CFB constructor is the error of the Blowfish `NewCipher`. -/
theorem newBlowFishStream_err_inv (k iv : List Byte) (d : Bool) (e : String)
    (h : newBlowFishStream k iv d = .err e) : blowfish.NewCipher k = .err e := by
  unfold newBlowFishStream at h
  cases hb : blowfish.NewCipher k with
  | ok b => rw [hb] at h; exact absurd h (newCFBStream_ne_err b iv d e)
  | err m => rw [hb] at h; simpa [Res.bind] using h
  | panic m => rw [hb] at h; simp [Res.bind] at h

/-- An error of the CAST5 CFB constructor is the error of the CAST5 `NewCipher`. -/
theorem newCast5Stream_err_inv (k iv : List Byte) (d : Bool) (e : String)
    (h : newCast5Stream k iv d = .err e) : cast5.NewCipher k = .err e := by
  unfold newCast5Stream at h
  cases hb : cast5.NewCipher k with
  | ok b => rw [hb] at h; exact absurd h (newCFBStream_ne_err b iv d e)
  | err m => rw [hb] at h; simpa [Res.bind] using h
  | panic m => rw [hb] at h; simp [Res.bind] at h

/-- An error of the ChaCha20 constructor is the error of the ChaCha20 `NewCipher`. -/
theorem newChaCha20Stream_err_inv (k iv : List Byte) (d : Bool) (e : String)
    (h : newChaCha20Stream k iv d = .err e) : chacha20.NewCipher k iv = .err e := by
  unfold newChaCha20Stream at h
  cases hb : chacha20.NewCipher k iv with
  | ok b => rw [hb] at h; simp [Res.bind] at h
  | err m => rw [hb] at h; simpa [Res.bind] using h
  | panic m => rw [hb] at h; simp [Res.bind] at h


/-- Whether a registered constructor returns a stream depends neither on the
decrypt flag nor on the key bytes beyond their number (for an IV of the
registered size). -/
theorem stream_isOk_by_length (method : String) (mi : cipherInfo) (k1 k2 iv : List Byte)
    (d1 d2 : Bool) (hm : cipherMethod.lookup method = some mi) (hlen : k1.length = k2.length)
    (hiv : iv.length = mi.ivSize) :
    (mi.stream k1 iv d1).isOk = (mi.stream k2 iv d2).isOk := by
  rcases registry_entries method mi hm with
    h | h | h | h | h | h | h | h | h | h | h | h | h | h | h | h <;>
    obtain ⟨rfl, rfl⟩ := h <;> simp only [] at hiv ⊢
  · by_cases hA : k1.length = 16 ∨ k1.length = 24 ∨ k1.length = 32
    · have hA2 : k2.length = 16 ∨ k2.length = 24 ∨ k2.length = 32 := by rw [← hlen]; exact hA
      rw [newAESGCMStream_ok _ _ _ hA (by rw [hiv]; decide), newAESGCMStream_ok _ _ _ hA2 (by rw [hiv]; decide)]
      rfl
    · have hA2 : ¬ (k2.length = 16 ∨ k2.length = 24 ∨ k2.length = 32) := by rw [← hlen]; exact hA
      rw [(aes_streams_err k1 iv d1 hA).1, (aes_streams_err k2 iv d2 hA2).1]
      rfl
  · by_cases hA : k1.length = 16 ∨ k1.length = 24 ∨ k1.length = 32
    · have hA2 : k2.length = 16 ∨ k2.length = 24 ∨ k2.length = 32 := by rw [← hlen]; exact hA
      rw [newAESGCMStream_ok _ _ _ hA (by rw [hiv]; decide), newAESGCMStream_ok _ _ _ hA2 (by rw [hiv]; decide)]
      rfl
    · have hA2 : ¬ (k2.length = 16 ∨ k2.length = 24 ∨ k2.length = 32) := by rw [← hlen]; exact hA
      rw [(aes_streams_err k1 iv d1 hA).1, (aes_streams_err k2 iv d2 hA2).1]
      rfl
  · by_cases hA : k1.length = 16 ∨ k1.length = 24 ∨ k1.length = 32
    · have hA2 : k2.length = 16 ∨ k2.length = 24 ∨ k2.length = 32 := by rw [← hlen]; exact hA
      rw [newAESGCMStream_ok _ _ _ hA (by rw [hiv]; decide), newAESGCMStream_ok _ _ _ hA2 (by rw [hiv]; decide)]
      rfl
    · have hA2 : ¬ (k2.length = 16 ∨ k2.length = 24 ∨ k2.length = 32) := by rw [← hlen]; exact hA
      rw [(aes_streams_err k1 iv d1 hA).1, (aes_streams_err k2 iv d2 hA2).1]
      rfl
  · by_cases hA : k1.length = 16 ∨ k1.length = 24 ∨ k1.length = 32
    · have hA2 : k2.length = 16 ∨ k2.length = 24 ∨ k2.length = 32 := by rw [← hlen]; exact hA
      rw [newAESCFBStream_ok _ _ _ hA hiv, newAESCFBStream_ok _ _ _ hA2 hiv]
      rfl
    · have hA2 : ¬ (k2.length = 16 ∨ k2.length = 24 ∨ k2.length = 32) := by rw [← hlen]; exact hA
      rw [(aes_streams_err k1 iv d1 hA).2.1, (aes_streams_err k2 iv d2 hA2).2.1]
      rfl
  · by_cases hA : k1.length = 16 ∨ k1.length = 24 ∨ k1.length = 32
    · have hA2 : k2.length = 16 ∨ k2.length = 24 ∨ k2.length = 32 := by rw [← hlen]; exact hA
      rw [newAESCFBStream_ok _ _ _ hA hiv, newAESCFBStream_ok _ _ _ hA2 hiv]
      rfl
    · have hA2 : ¬ (k2.length = 16 ∨ k2.length = 24 ∨ k2.length = 32) := by rw [← hlen]; exact hA
      rw [(aes_streams_err k1 iv d1 hA).2.1, (aes_streams_err k2 iv d2 hA2).2.1]
      rfl
  · by_cases hA : k1.length = 16 ∨ k1.length = 24 ∨ k1.length = 32
    · have hA2 : k2.length = 16 ∨ k2.length = 24 ∨ k2.length = 32 := by rw [← hlen]; exact hA
      rw [newAESCFBStream_ok _ _ _ hA hiv, newAESCFBStream_ok _ _ _ hA2 hiv]
      rfl
    · have hA2 : ¬ (k2.length = 16 ∨ k2.length = 24 ∨ k2.length = 32) := by rw [← hlen]; exact hA
      rw [(aes_streams_err k1 iv d1 hA).2.1, (aes_streams_err k2 iv d2 hA2).2.1]
      rfl
  · by_cases hA : k1.length = 16 ∨ k1.length = 24 ∨ k1.length = 32
    · have hA2 : k2.length = 16 ∨ k2.length = 24 ∨ k2.length = 32 := by rw [← hlen]; exact hA
      rw [newAESCTRStream_ok _ _ _ hA hiv, newAESCTRStream_ok _ _ _ hA2 hiv]
      rfl
    · have hA2 : ¬ (k2.length = 16 ∨ k2.length = 24 ∨ k2.length = 32) := by rw [← hlen]; exact hA
      rw [(aes_streams_err k1 iv d1 hA).2.2, (aes_streams_err k2 iv d2 hA2).2.2]
      rfl
  · by_cases hA : k1.length = 16 ∨ k1.length = 24 ∨ k1.length = 32
    · have hA2 : k2.length = 16 ∨ k2.length = 24 ∨ k2.length = 32 := by rw [← hlen]; exact hA
      rw [newAESCTRStream_ok _ _ _ hA hiv, newAESCTRStream_ok _ _ _ hA2 hiv]
      rfl
    · have hA2 : ¬ (k2.length = 16 ∨ k2.length = 24 ∨ k2.length = 32) := by rw [← hlen]; exact hA
      rw [(aes_streams_err k1 iv d1 hA).2.2, (aes_streams_err k2 iv d2 hA2).2.2]
      rfl
  · by_cases hA : k1.length = 16 ∨ k1.length = 24 ∨ k1.length = 32
    · have hA2 : k2.length = 16 ∨ k2.length = 24 ∨ k2.length = 32 := by rw [← hlen]; exact hA
      rw [newAESCTRStream_ok _ _ _ hA hiv, newAESCTRStream_ok _ _ _ hA2 hiv]
      rfl
    · have hA2 : ¬ (k2.length = 16 ∨ k2.length = 24 ∨ k2.length = 32) := by rw [← hlen]; exact hA
      rw [(aes_streams_err k1 iv d1 hA).2.2, (aes_streams_err k2 iv d2 hA2).2.2]
      rfl
  · by_cases hA : k1.length = 8
    · have hA2 : k2.length = 8 := by rw [← hlen]; exact hA
      rw [newDESCFBStream_ok _ _ _ hA hiv, newDESCFBStream_ok _ _ _ hA2 hiv]
      rfl
    · have hA2 : ¬ (k2.length = 8) := by rw [← hlen]; exact hA
      rw [newDESCFBStream_err k1 iv d1 hA, newDESCFBStream_err k2 iv d2 hA2]
      rfl
  · by_cases hA : 1 ≤ k1.length ∧ k1.length ≤ 56
    · have hA2 : 1 ≤ k2.length ∧ k2.length ≤ 56 := by rw [← hlen]; exact hA
      rw [newBlowFishStream_ok _ _ _ hA hiv, newBlowFishStream_ok _ _ _ hA2 hiv]
      rfl
    · have hA2 : ¬ (1 ≤ k2.length ∧ k2.length ≤ 56) := by rw [← hlen]; exact hA
      rw [newBlowFishStream_err k1 iv d1 hA, newBlowFishStream_err k2 iv d2 hA2]
      rfl
  · by_cases hA : k1.length = 16
    · have hA2 : k2.length = 16 := by rw [← hlen]; exact hA
      rw [newCast5Stream_ok _ _ _ hA hiv, newCast5Stream_ok _ _ _ hA2 hiv]
      rfl
    · have hA2 : ¬ (k2.length = 16) := by rw [← hlen]; exact hA
      rw [newCast5Stream_err k1 iv d1 hA, newCast5Stream_err k2 iv d2 hA2]
  · rw [newRC4MD5Stream_eq, newRC4MD5Stream_eq]
    rfl
  · rw [newRC4MD5Stream_eq, newRC4MD5Stream_eq]
    rfl
  · by_cases hA : k1.length = 32
    · have hA2 : k2.length = 32 := by rw [← hlen]; exact hA
      rw [newChaCha20Stream_ok _ _ _ hA (Or.inl hiv), newChaCha20Stream_ok _ _ _ hA2 (Or.inl hiv)]
      rfl
    · have hA2 : ¬ (k2.length = 32) := by rw [← hlen]; exact hA
      rw [newChaCha20Stream_err k1 iv d1 hA, newChaCha20Stream_err k2 iv d2 hA2]
  · by_cases hA : k1.length = 32
    · have hA2 : k2.length = 32 := by rw [← hlen]; exact hA
      rw [newChaCha20Stream_ok _ _ _ hA (Or.inr hiv), newChaCha20Stream_ok _ _ _ hA2 (Or.inr hiv)]
      rfl
    · have hA2 : ¬ (k2.length = 32) := by rw [← hlen]; exact hA
      rw [newChaCha20Stream_err k1 iv d1 hA, newChaCha20Stream_err k2 iv d2 hA2]

/-- C6, as amended: for a registered method and a non-empty key shorter than
the method's keySize, `NewCipher` does not look at keySize. It returns a
session when the primitive accepts the key length, that is for an AES-192 or
AES-256 method with a key of 16 or 24 bytes and for bf-cfb, rc4-md5 and
rc4-md5-6 with any such key. In every other case it returns no session but an
error, and that error comes from the primitive's constructor: it is the error
the method's registered constructor returns in the first invocation (on the
key and `riv`, decrypt=true), which in turn is the error of `aes.NewCipher`
for the nine AES methods, of `des.NewCipher` for des-cfb, of the CAST5
`NewCipher` for cast5-cfb and of the ChaCha20 `NewCipher` for chacha20 and
chacha20-ietf, each applied to the key bytes. -/
theorem NewCipher_short_key (method : String) (key : Slice) (mi : cipherInfo)
    (hk : key.len ≠ 0) (hm : cipherMethod.lookup method = some mi)
    (hshort : key.len < mi.keySize) :
    (((method ∈ ["aes-192-gcm", "aes-256-gcm", "aes-192-cfb", "aes-256-cfb", "aes-192-ctr",
          "aes-256-ctr"] ∧ (key.len = 16 ∨ key.len = 24)) ∨
        method ∈ ["bf-cfb", "rc4-md5", "rc4-md5-6"]) →
      ∃ c, NewCipher method key = .ok c) ∧
    (¬ ((method ∈ ["aes-192-gcm", "aes-256-gcm", "aes-192-cfb", "aes-256-cfb", "aes-192-ctr",
          "aes-256-ctr"] ∧ (key.len = 16 ∨ key.len = 24)) ∨
        method ∈ ["bf-cfb", "rc4-md5", "rc4-md5-6"]) →
      ∃ (riv : Slice) (msg : String), NewCipher.riv key mi.ivSize = .ok riv ∧
        mi.stream key.data riv.data true = .err msg ∧
        NewCipher method key = .err msg ∧
        (method ∈ ["aes-128-gcm", "aes-192-gcm", "aes-256-gcm", "aes-128-cfb", "aes-192-cfb",
          "aes-256-cfb", "aes-128-ctr", "aes-192-ctr", "aes-256-ctr"] →
          aes.NewCipher key.data = .err msg) ∧
        (method = "des-cfb" → des.NewCipher key.data = .err msg) ∧
        (method = "cast5-cfb" → cast5.NewCipher key.data = .err msg) ∧
        (method ∈ ["chacha20", "chacha20-ietf"] →
          chacha20.NewCipher key.data riv.data = .err msg) ∧
        method ∈ ["aes-128-gcm", "aes-192-gcm", "aes-256-gcm", "aes-128-cfb", "aes-192-cfb",
          "aes-256-cfb", "aes-128-ctr", "aes-192-ctr", "aes-256-ctr", "des-cfb", "cast5-cfb",
          "chacha20", "chacha20-ietf"]) := by
  have hout := NewCipher_short_key_outcome method key mi hk hm hshort
  refine ⟨hout.1, fun hn => ?_⟩
  obtain ⟨msg, hmsg⟩ := hout.2 hn
  have hiv := (registry_ivSize_le method mi hm).2
  have hrl := derivedIV_length key mi.ivSize hiv
  have heq := NewCipher_eq method key mi hk hm hiv
  have h1 : mi.stream key.data (derivedIV key mi.ivSize) true = .err msg := by
    cases hf : mi.stream key.data (derivedIV key mi.ivSize) true with
    | err e =>
      rw [heq, hf] at hmsg
      simp only [Res.bind, Res.err.injEq] at hmsg
      rw [hmsg]
    | panic m =>
      rw [heq, hf] at hmsg
      simp [Res.bind] at hmsg
    | ok rs =>
      have hs := stream_isOk_by_length method mi key.data (keyAfter key mi.ivSize).data
        (derivedIV key mi.ivSize) true false hm (keyAfter_len key mi.ivSize).symm hrl
      rw [hf] at hs
      obtain ⟨ws, hws⟩ := Res.exists_of_isOk _ hs.symm
      rw [heq, hf, hws] at hmsg
      simp [Res.bind] at hmsg
  refine ⟨⟨derivedIV key mi.ivSize, _⟩, msg, riv_ok key mi.ivSize hiv, h1, hmsg, ?_⟩
  rcases registry_entries method mi hm with
    h | h | h | h | h | h | h | h | h | h | h | h | h | h | h | h <;>
    obtain ⟨rfl, rfl⟩ := h <;> simp only [] at h1 hrl ⊢
  · exact ⟨fun _ => newAESGCMStream_err_inv _ _ _ _ (by rw [hrl]; decide) h1, fun hx => absurd hx (by decide), fun hx => absurd hx (by decide), fun hx => absurd hx (by decide), by decide⟩
  · exact ⟨fun _ => newAESGCMStream_err_inv _ _ _ _ (by rw [hrl]; decide) h1, fun hx => absurd hx (by decide), fun hx => absurd hx (by decide), fun hx => absurd hx (by decide), by decide⟩
  · exact ⟨fun _ => newAESGCMStream_err_inv _ _ _ _ (by rw [hrl]; decide) h1, fun hx => absurd hx (by decide), fun hx => absurd hx (by decide), fun hx => absurd hx (by decide), by decide⟩
  · exact ⟨fun _ => newAESCFBStream_err_inv _ _ _ _ h1, fun hx => absurd hx (by decide), fun hx => absurd hx (by decide), fun hx => absurd hx (by decide), by decide⟩
  · exact ⟨fun _ => newAESCFBStream_err_inv _ _ _ _ h1, fun hx => absurd hx (by decide), fun hx => absurd hx (by decide), fun hx => absurd hx (by decide), by decide⟩
  · exact ⟨fun _ => newAESCFBStream_err_inv _ _ _ _ h1, fun hx => absurd hx (by decide), fun hx => absurd hx (by decide), fun hx => absurd hx (by decide), by decide⟩
  · exact ⟨fun _ => newAESCTRStream_err_inv _ _ _ _ h1, fun hx => absurd hx (by decide), fun hx => absurd hx (by decide), fun hx => absurd hx (by decide), by decide⟩
  · exact ⟨fun _ => newAESCTRStream_err_inv _ _ _ _ h1, fun hx => absurd hx (by decide), fun hx => absurd hx (by decide), fun hx => absurd hx (by decide), by decide⟩
  · exact ⟨fun _ => newAESCTRStream_err_inv _ _ _ _ h1, fun hx => absurd hx (by decide), fun hx => absurd hx (by decide), fun hx => absurd hx (by decide), by decide⟩
  · exact ⟨fun hx => absurd hx (by decide), fun _ => newDESCFBStream_err_inv _ _ _ _ h1, fun hx => absurd hx (by decide), fun hx => absurd hx (by decide), by decide⟩
  · exact absurd (Or.inr (by decide)) hn
  · exact ⟨fun hx => absurd hx (by decide), fun hx => absurd hx (by decide), fun _ => newCast5Stream_err_inv _ _ _ _ h1, fun hx => absurd hx (by decide), by decide⟩
  · exact absurd (Or.inr (by decide)) hn
  · exact absurd (Or.inr (by decide)) hn
  · exact ⟨fun hx => absurd hx (by decide), fun hx => absurd hx (by decide), fun hx => absurd hx (by decide), fun _ => newChaCha20Stream_err_inv _ _ _ _ h1, by decide⟩
  · exact ⟨fun hx => absurd hx (by decide), fun hx => absurd hx (by decide), fun hx => absurd hx (by decide), fun _ => newChaCha20Stream_err_inv _ _ _ _ h1, by decide⟩

/-- A 16-byte key under "aes-256-ctr" is accepted; a 3-byte key under "des-cfb"
is refused with the error of `des.NewCipher`. -/
theorem NewCipher_short_key_witness :
    (∃ c, NewCipher "aes-256-ctr" key16 = .ok c) ∧
    (∃ msg, NewCipher "des-cfb" ⟨[1, 2, 3], []⟩ = .err msg ∧
      des.NewCipher [1, 2, 3] = .err msg) := by
  refine ⟨(NewCipher_short_key "aes-256-ctr" key16 ⟨32, 16, newAESCTRStream⟩ (by decide) rfl
      (by decide)).1 (Or.inl ⟨by decide, by decide⟩), ?_⟩
  obtain ⟨riv, msg, _, _, h3, _, h5, _⟩ :=
    (NewCipher_short_key "des-cfb" ⟨[1, 2, 3], []⟩ ⟨8, 8, newDESCFBStream⟩ (by decide) rfl
      (by decide)).2 (by decide)
  exact ⟨msg, h3, h5 rfl⟩

/-! ## The write constructor and the key as passed -/

set_option maxRecDepth 100000 in
/-- C15: for "cast5-cfb" and the 16 key bytes 1, ..., 16 held in a 48-byte
array, `NewCipher` returns a session; `riv` and `wiv` are both the first eight
key bytes, and the session's ReadStream is the result of the constructor on
the key as passed, `riv` and decrypt=true. Its WriteStream, however, is not the
result of the constructor on the key as passed, `wiv` and decrypt=false, which
is the CFB encrypter under CAST5 with the key 1, ..., 16: it is the CFB
encrypter under CAST5 with the key whose bytes 8 to 15 have been overwritten by
the first eight bytes of the digest of the empty input. -/
theorem NewCipher_write_stream_not_from_passed_key :
    (NewCipher "cast5-cfb" key16spare).map Cipher.parts =
      .ok (.lib (.cfbDecrypter (.cast5 key16.data) (key16.data.take 8)) [],
           .lib (.cfbEncrypter (.cast5 (key16.data.take 8 ++ emptyDigest.take 8))
             (key16.data.take 8)) [],
           ⟨key16.data.take 8 ++ emptyDigest.take 8,
            emptyDigest.drop 8 ++ emptyDigest.drop 24⟩) ∧
    (NewCipher.riv key16spare 8).bind
        (fun riv => (NewCipher.wiv riv 8).map fun wiv => (riv.data, wiv.data)) =
      .ok (key16.data.take 8, key16.data.take 8) ∧
    key16spare.data = key16.data ∧
    newCast5Stream key16spare.data (key16.data.take 8) true =
      .ok (.lib (.cfbDecrypter (.cast5 key16.data) (key16.data.take 8)) []) ∧
    newCast5Stream key16spare.data (key16.data.take 8) false =
      .ok (.lib (.cfbEncrypter (.cast5 key16.data) (key16.data.take 8)) []) ∧
    Stream.lib (.cfbEncrypter (.cast5 (key16.data.take 8 ++ emptyDigest.take 8))
        (key16.data.take 8)) [] ≠
      Stream.lib (.cfbEncrypter (.cast5 key16.data) (key16.data.take 8)) [] := by
  exact ⟨by decide!, by decide!, by decide, by decide, by decide, by decide⟩

end GoCrypto
